import Mathlib

/-!
Verification of the hierarchical, reference-linked event-log engine in
`src/loggers/eventlogger.py` (classes `HDF5container`, `HDF5dataset`,
`HDF5referenceDataset`, `HDF5linkedDatasets`, `HDF5hierarchicalDatasets`,
`HDF5eventLogger`, and the module-level helper functions).

Shallow embedding conventions:
* Python scalars stored in the HDF5 record arrays are modelled by `Value`:
  floats and datetimes carry a rational payload (a datetime is identified by
  its timestamp, mirroring `datetime.timestamp()` / `item_to_np`), strings are
  Lean strings, UUID objects are modelled by a natural number whose string
  form `uuidStr` plays the role of `str(uuid)`; `uuid.UUID(s)` applied to a
  string that is not of that form raises `ValueError`, modelled by
  `parseUUID = none`.
* Python dicts (event records) are insertion-ordered association lists
  (`Dict`), with `dictSet` updating in place / appending, as Python does.
* All datasets used by the engine have shape `(m, 1)` (`create_event_dataset`
  always makes `shape (m, 1)`, `maxshape (None, 1)`, and rows are appended
  along axis 0), so a row location `(i, 0)` is modelled by the row number `i`.
* Exceptions are modelled by `Except Err`; a Python `try/except` block is a
  `match` on the `Except` value.  Mutations performed before an exception is
  raised persist (functions return the updated state together with the
  `Except` result), as they do in Python.
-/

/-- Python exception kinds raised by the embedded code. -/
inductive Err where
  | keyError
  | indexError
  | valueError
  | typeError
  | nameError
  | valueDupError  -- bidict ValueDuplicationError
  | keyDupError    -- bidict KeyDuplicationError
deriving DecidableEq, Repr

/-- Scalar values stored in records: Python float / int / str / datetime /
uuid.UUID.  A datetime is represented by its timestamp. -/
inductive Value where
  | float (q : ℚ)
  | int (z : ℤ)
  | str (s : String)
  | dt (ts : ℚ)
  | uid (u : Nat)
deriving DecidableEq, Repr

/-- Model of `str(uuid)`: the canonical string form of a modelled UUID. -/
def uuidStr (u : Nat) : String := Nat.repr u

/-- Model of `uuid.UUID(s)`: succeeds exactly on strings produced by
`uuidStr` (in particular it fails on the empty string that fills a freshly
resized row, matching `ValueError` from `uuid.UUID("")`, and on any other
field content such as an event-type name). -/
def parseUUID (s : String) : Option Nat :=
  if s.data ≠ [] ∧ s.data.all (fun c => c.isDigit) then
    some (s.data.foldl (fun n c => n * 10 + (c.toNat - 48)) 0)
  else none

/-- A Python dict holding record fields, in insertion order. -/
abbrev Dict := List (String × Value)

/-- `d[k]` as an option. -/
def dictGet (d : Dict) (k : String) : Option Value :=
  (d.find? (fun p => p.1 = k)).map Prod.snd

/-- `d[k] = v`: overwrite in place when the key exists, append otherwise
(Python dicts keep the original position of an overwritten key). -/
def dictSet (d : Dict) (k : String) (v : Value) : Dict :=
  if d.any (fun p => p.1 = k) then
    d.map (fun p => if p.1 = k then (k, v) else p)
  else
    d ++ [(k, v)]

/-- `d.pop(k)` (the removal part; callers check presence where Python would
raise `KeyError`). -/
def dictDrop (d : Dict) (k : String) : Dict :=
  d.filter (fun p => p.1 ≠ k)

/-- The key list of a dict. -/
def dictKeys (d : Dict) : List String := d.map Prod.fst

/-- `merge_dict(dict1, dict2, copy_=True)` from eventlogger.py: copy `dict1`
and assign every key of `dict2` into the copy.  The embedding is pure, so the
`copy_=True` behaviour (both arguments left unmodified) is inherent: the
function returns a new dict and its arguments are immutable values. -/
def merge_dict (dict1 dict2 : Dict) : Dict :=
  dict2.foldl (fun acc p => dictSet acc p.1 p.2) dict1

/-- `item_to_np` from eventlogger.py: ints, floats and strings pass through;
a datetime becomes its timestamp; a UUID becomes its string. -/
def item_to_np (item : Value) : Value :=
  match item with
  | .int z => .int z
  | .float q => .float q
  | .str s => .str s
  | .dt ts => .float ts
  | .uid u => .str (uuidStr u)

/-- A numpy dtype descriptor `dtype.descr`: field names with element type
names ("float", "int" or "str"). -/
abbrev Descr := List (String × String)

/-- A row of a record array, one `Value` per `Descr` field, in field order. -/
abbrev Row := List Value

/-- `np_to_dict(array)` from eventlogger.py: read each described field of a
record into a dict, in field order. -/
def np_to_dict (descr : Descr) (row : Row) : Dict :=
  (descr.map Prod.fst).zip row

/-- `dict_to_np(item, descr, pop=False)` from eventlogger.py: for each field
of `descr`, take `item[field]` (raising `KeyError` when absent, as Python's
`item.pop(field)` / `item[field]` would), convert with `item_to_np`, and when
`pop` is set remove the field from the dict.  Returns the assembled row
together with the (possibly reduced) dict, which Python mutates in place. -/
def dict_to_np (item : Dict) (descr : Descr) (pop : Bool) :
    Except Err (Row × Dict) :=
  match descr with
  | [] => .ok ([], item)
  | (field, _) :: rest =>
    match dictGet item field with
    | none => .error .keyError
    | some data =>
      let item1 := if pop then dictDrop item field else item
      match dict_to_np item1 rest pop with
      | .error e => .error e
      | .ok (vs, item2) => .ok (item_to_np data :: vs, item2)

-- Helper lemmas about dict operations -------------------------------------

theorem dictGet_cons (a : String × Value) (t : Dict) (k : String) :
    dictGet (a :: t) k = if a.1 = k then some a.2 else dictGet t k := by
  by_cases h : a.1 = k <;> simp [dictGet, List.find?_cons, h]

theorem dictGet_eq_none_of_not_mem (d : Dict) (k : String)
    (h : k ∉ dictKeys d) : dictGet d k = none := by
  induction d with
  | nil => rfl
  | cons a t ih =>
    simp only [dictKeys, List.map_cons, List.mem_cons, not_or] at h
    rw [dictGet_cons, if_neg (fun he => h.1 he.symm)]
    exact ih h.2

theorem mem_of_dictGet_some (d : Dict) (k : String) (v : Value)
    (h : dictGet d k = some v) : k ∈ dictKeys d := by
  by_contra hk
  rw [dictGet_eq_none_of_not_mem d k hk] at h
  exact Option.noConfusion h

theorem dictGet_dictSet_self (d : Dict) (k : String) (v : Value) :
    dictGet (dictSet d k v) k = some v := by
  unfold dictSet
  by_cases h : d.any (fun p => p.1 = k)
  · simp only [if_pos h]
    rw [List.any_eq_true] at h
    obtain ⟨p, hp, hpk⟩ := h
    simp only [decide_eq_true_eq] at hpk
    induction d with
    | nil => simp at hp
    | cons a t ih =>
      rw [List.map_cons]
      by_cases ha : a.1 = k
      · rw [if_pos ha, dictGet_cons, if_pos rfl]
      · rw [if_neg ha, dictGet_cons, if_neg ha]
        rcases List.mem_cons.mp hp with h1 | h1
        · exact absurd (h1 ▸ hpk) ha
        · exact ih h1
  · simp only [if_neg h]
    induction d with
    | nil => simp [dictGet]
    | cons a t ih =>
      rw [List.any_cons, Bool.or_eq_true] at h
      push_neg at h
      rw [List.cons_append, dictGet_cons,
        if_neg (by simpa using h.1)]
      exact ih h.2

theorem dictGet_dictSet_other (d : Dict) (k k' : String) (v : Value)
    (hne : k' ≠ k) : dictGet (dictSet d k v) k' = dictGet d k' := by
  unfold dictSet
  by_cases h : d.any (fun p => p.1 = k)
  · simp only [if_pos h]
    clear h
    induction d with
    | nil => rfl
    | cons a t ih =>
      rw [List.map_cons]
      by_cases ha : a.1 = k
      · rw [if_pos ha, dictGet_cons, dictGet_cons,
          if_neg (fun he : (k, v).1 = k' => hne he.symm),
          if_neg (fun he : a.1 = k' => hne (ha ▸ he).symm)]
        exact ih
      · rw [if_neg ha, dictGet_cons, dictGet_cons]
        by_cases hk' : a.1 = k'
        · rw [if_pos hk', if_pos hk']
        · rw [if_neg hk', if_neg hk']
          exact ih
  · simp only [if_neg h]
    induction d with
    | nil =>
      rw [List.nil_append, dictGet_cons,
        if_neg (fun he : (k, v).1 = k' => hne he.symm)]
    | cons a t ih =>
      rw [List.any_cons, Bool.or_eq_true] at h
      push_neg at h
      rw [List.cons_append, dictGet_cons, dictGet_cons]
      by_cases hk' : a.1 = k'
      · rw [if_pos hk', if_pos hk']
      · rw [if_neg hk', if_neg hk']
        exact ih h.2

theorem dictGet_merge_dict_not_mem (d2 d1 : Dict) (k : String)
    (h : k ∉ dictKeys d2) :
    dictGet (merge_dict d1 d2) k = dictGet d1 k := by
  induction d2 generalizing d1 with
  | nil => rfl
  | cons a t ih =>
    simp only [dictKeys, List.map_cons, List.mem_cons, not_or] at h
    show dictGet (merge_dict (dictSet d1 a.1 a.2) t) k = dictGet d1 k
    rw [ih (dictSet d1 a.1 a.2) h.2]
    exact dictGet_dictSet_other d1 a.1 k a.2 h.1

theorem dictGet_merge_dict_of_some (d1 d2 : Dict) (k : String) (v : Value)
    (hnd : (dictKeys d2).Nodup) (h : dictGet d2 k = some v) :
    dictGet (merge_dict d1 d2) k = some v := by
  induction d2 generalizing d1 with
  | nil => exact Option.noConfusion h
  | cons a t ih =>
    simp only [dictKeys, List.map_cons, List.nodup_cons] at hnd
    rw [dictGet_cons] at h
    show dictGet (merge_dict (dictSet d1 a.1 a.2) t) k = some v
    by_cases ha : a.1 = k
    · rw [if_pos ha] at h
      rw [dictGet_merge_dict_not_mem t (dictSet d1 a.1 a.2) k (ha ▸ hnd.1),
        ha, dictGet_dictSet_self]
      exact congrArg some (Option.some.inj h)
    · rw [if_neg ha] at h
      exact ih (dictSet d1 a.1 a.2) hnd.2 h

theorem dictGet_merge_dict_of_none (d1 d2 : Dict) (k : String)
    (h : dictGet d2 k = none) :
    dictGet (merge_dict d1 d2) k = dictGet d1 k := by
  induction d2 generalizing d1 with
  | nil => rfl
  | cons a t ih =>
    rw [dictGet_cons] at h
    by_cases ha : a.1 = k
    · rw [if_pos ha] at h; exact Option.noConfusion h
    · rw [if_neg ha] at h
      show dictGet (merge_dict (dictSet d1 a.1 a.2) t) k = dictGet d1 k
      rw [ih (dictSet d1 a.1 a.2) h]
      exact dictGet_dictSet_other d1 a.1 k a.2 (fun he => ha he.symm)

-- ==========================================================================
-- bidict: the bidirectional map used for `HDF5referenceDataset.references`
-- ==========================================================================

/-- The key type of the `references` bidict: `uuid.UUID` objects, or Python
`None` (which `get_id` inserts when `find_id` returns `None`). -/
abbrev RefKey := Option Nat

/-- The `references` bidict of an `HDF5referenceDataset`: UUID keys to row
locations.  The `bidict` library keeps both directions functional. -/
abbrev Bidict := List (RefKey × Nat)

/-- Forward lookup `bd[k]`. -/
def bidictLookup (b : Bidict) (k : RefKey) : Option Nat :=
  (b.find? (fun p => p.1 = k)).map Prod.snd

/-- Inverse lookup `bd.inverse[v]`. -/
def bidictInvLookup (b : Bidict) (v : Nat) : Option RefKey :=
  (b.find? (fun p => p.2 = v)).map Prod.fst

/-- `bd[k] = v` with the `bidict` library's `__setitem__` semantics: a
duplicate key is overwritten, a duplicate value bound to another key raises
`ValueDuplicationError`. -/
def bidictPut (b : Bidict) (k : RefKey) (v : Nat) : Except Err Bidict :=
  if b.any (fun p => p.2 = v ∧ p.1 ≠ k) then .error .valueDupError
  else .ok ((b.filter (fun p => p.1 ≠ k)) ++ [(k, v)])

/-- `bd.inverse[v] = k`: a duplicate location is overwritten, a duplicate id
bound to another location raises `KeyDuplicationError`. -/
def bidictInvPut (b : Bidict) (v : Nat) (k : RefKey) : Except Err Bidict :=
  if b.any (fun p => p.1 = k ∧ p.2 ≠ v) then .error .keyDupError
  else .ok ((b.filter (fun p => p.2 ≠ v)) ++ [(k, v)])

/-- The bidirectional-index invariant: each cached id maps to exactly one
location and each cached location to exactly one id. -/
def BidictWF (b : Bidict) : Prop :=
  (b.map Prod.fst).Nodup ∧ (b.map Prod.snd).Nodup

instance (b : Bidict) : Decidable (BidictWF b) := by
  unfold BidictWF; infer_instance

-- ==========================================================================
-- Record datasets (shape (m, 1)) and HDF5referenceDataset
-- ==========================================================================

/-- The zero fill h5py/numpy uses for newly allocated rows: numeric fields
read 0, string fields read the empty string. -/
def defaultValue (tyname : String) : Value :=
  if tyname = "float" then .float 0
  else if tyname = "int" then .int 0
  else .str ""

/-- A resizable record array of shape `(rows.length, 1)` with a fixed field
schema, as produced by `create_event_dataset`. -/
structure Dset where
  descr : Descr
  rows : List Row
deriving DecidableEq, Repr

/-- Index of a field inside a descriptor. -/
def fieldIndex (descr : Descr) (f : String) : Option Nat :=
  descr.findIdx? (fun p => p.1 = f)

/-- `record[field]` for one stored row. -/
def rowField (descr : Descr) (row : Row) (f : String) : Option Value :=
  (fieldIndex descr f).bind (fun i => row.get? i)

/-- `record[field] = v` for one stored row. -/
def rowSetField (descr : Descr) (row : Row) (f : String) (v : Value) : Row :=
  match fieldIndex descr f with
  | none => row
  | some i => row.set i v

/-- `dataset[(i, 0)]` (raising `IndexError` out of range). -/
def dsetGetRow (d : Dset) (i : Nat) : Except Err Row :=
  match d.rows.get? i with
  | none => .error .indexError
  | some r => .ok r

/-- `dataset[(i, 0)] = row`. -/
def dsetSetRow (d : Dset) (i : Nat) (row : Row) : Dset :=
  { d with rows := d.rows.set i row }

/-- `dataset.resize(n, 0)`: grow along axis 0, zero-filling new rows. -/
def dsetResize (d : Dset) (n : Nat) : Dset :=
  { d with rows :=
      d.rows.take n ++
        List.replicate (n - d.rows.length) (d.descr.map (fun p => defaultValue p.2)) }

/-- `HDF5referenceDataset`: a dataset, the name of its reference (UUID)
field, and the lazily populated bidirectional id-to-location cache.
(`fields` and `_reference_array` of the source are derived data: the field
map is `fieldIndex`, and the reference array is recomputed from the dataset
by the `reference_array` property on every use, which `refColumn` mirrors.) -/
structure RefSt where
  dset : Dset
  reference_field : String
  references : Bidict
deriving DecidableEq, Repr

namespace HDF5referenceDataset

/-- `construct(dataset, reference_field)`: raises `NameError` when the
reference field is not one of the dataset's fields. -/
def construct (dset : Dset) (reference_field : String) : Except Err RefSt :=
  if dset.descr.any (fun p => p.1 = reference_field) then
    .ok { dset := dset, reference_field := reference_field, references := [] }
  else .error .nameError

/-- The `reference_array` property: the reference-field column. -/
def refColumn (rs : RefSt) : List Value :=
  rs.dset.rows.map
    (fun r => (rowField rs.dset.descr r rs.reference_field).getD (.str ""))

/-- The row numbers whose reference field equals `str(id_)`
(`np.where(self.reference_array == str(id_))`). -/
def matchIndices (rs : RefSt) (id_ : Nat) : List Nat :=
  ((refColumn rs).enum.filter
    (fun p => p.2 = Value.str (uuidStr id_))).map Prod.fst

/-- `find_index(id_)`: `None` when the id occurs nowhere, the first matching
location when it occurs once, `KeyError` when several rows match. -/
def find_index (rs : RefSt) (id_ : Nat) : Except Err (Option Nat) :=
  let hits := matchIndices rs id_
  if 1 < hits.length then .error .keyError
  else .ok hits.head?

/-- `set_reference(index, id_)`: write `str(id_)` into the row's reference
field and register the id-to-location pair in the cache. -/
def set_reference (rs : RefSt) (index : Nat) (id_ : Nat) :
    Except Err Unit × RefSt :=
  match dsetGetRow rs.dset index with
  | .error e => (.error e, rs)
  | .ok item =>
    let item1 := rowSetField rs.dset.descr item rs.reference_field
      (.str (uuidStr id_))
    let rs1 := { rs with dset := dsetSetRow rs.dset index item1 }
    match bidictPut rs1.references (some id_) index with
    | .error e => (.error e, rs1)
    | .ok b => (.ok (), { rs1 with references := b })

/-- `new_reference(axis=0, id_=...)`: grow the dataset by one row along axis
0 and write the id into the new row.  (The explicit multi-dimensional
`index` argument of the source is unused by the event logger, which always
appends; `new_link` passes `id_` explicitly, so the `uuid4()` default is
supplied by the caller.) -/
def new_reference (rs : RefSt) (id_ : Nat) : Except Err Nat × RefSt :=
  let m := rs.dset.rows.length
  let rs1 := { rs with dset := dsetResize rs.dset (m + 1) }
  match set_reference rs1 m id_ with
  | (.error e, rs2) => (.error e, rs2)
  | (.ok _, rs2) => (.ok id_, rs2)

/-- `get_index(id_)`: try to locate the id and cache the result, downgrading
any failure to a warning; finally, answer from the cache, which raises
`KeyError` when the id is not cached. -/
def get_index (rs : RefSt) (id_ : Nat) : Except Err Nat × RefSt :=
  let rs1 :=
    match find_index rs id_ with
    | .error _ => rs            -- caught: warn(e)
    | .ok none => rs            -- raise KeyError, caught: warn(e)
    | .ok (some index) =>
      match bidictPut rs.references (some id_) index with
      | .error _ => rs          -- caught: warn(e)
      | .ok b => { rs with references := b }
  let res : Except Err Nat :=
    match bidictLookup rs1.references (some id_) with
    | some index => .ok index
    | none => .error .keyError
  (res, rs1)

/-- `find_id(index)`: read the reference field of the row and parse it as a
UUID; a `ValueError` from `uuid.UUID` yields `None`. -/
def find_id (rs : RefSt) (index : Nat) : Except Err (Option Nat) :=
  match dsetGetRow rs.dset index with
  | .error e => .error e
  | .ok row =>
    match rowField rs.dset.descr row rs.reference_field with
    | some (.str s) => .ok (parseUUID s)
    | _ => .error .typeError

/-- `get_id(index)`: negative indices address the last row; try to read and
cache the row's id (failures downgraded to warnings); finally answer from
the inverse cache, raising `KeyError` when the location is not cached. -/
def get_id (rs : RefSt) (index : Int) : Except Err RefKey × RefSt :=
  let idx : Nat := if index < 0 then rs.dset.rows.length - 1 else index.toNat
  let rs1 :=
    match find_id rs idx with
    | .error _ => rs            -- caught: warn(e)
    | .ok v =>
      match bidictInvPut rs.references idx v with
      | .error _ => rs          -- caught: warn(e)
      | .ok b => { rs with references := b }
  let res : Except Err RefKey :=
    match bidictInvLookup rs1.references idx with
    | some k => .ok k
    | none => .error .keyError
  (res, rs1)

/-- A location argument of the polymorphic item accessors: a UUID (possibly
given as its string form, already parsed by the caller) or a row number. -/
inductive Loc where
  | uid (u : Nat)
  | idx (i : Nat)
deriving DecidableEq, Repr

/-- `get_item(location, dict_=True, id_=True)`: resolve a UUID location
through `get_index`, read the row, and return it as a dict. -/
def get_item (rs : RefSt) (location : Loc) : Except Err Dict × RefSt :=
  let resolved : Except Err Nat × RefSt :=
    match location with
    | .uid u => get_index rs u
    | .idx i => (.ok i, rs)
  match resolved with
  | (.error e, rs1) => (.error e, rs1)
  | (.ok index, rs1) =>
    match dsetGetRow rs1.dset index with
    | .error e => (.error e, rs1)
    | .ok row => (.ok (np_to_dict rs1.dset.descr row), rs1)

/-- The write half of `set_item(item, location, pop=False)`, after the
location is resolved to an id and a row index: stamp the id into the item's
reference field, assemble the row in schema order (popping consumed fields
when `pop` is set), write it, and register the id-to-location pair.  `nu1`
is the `uuid4` counter; the possibly reduced item dict is returned, since
Python mutates it in place. -/
def set_item_write (rs1 : RefSt) (nu1 : Nat) (item : Dict) (id_ : Nat)
    (index : Nat) (pop : Bool) : Except Err Dict × RefSt × Nat :=
  let item1 := dictSet item rs1.reference_field (.uid id_)
  match dict_to_np item1 rs1.dset.descr pop with
  | .error e => (.error e, rs1, nu1)
  | .ok (array, item2) =>
    let rs2 := { rs1 with dset := dsetSetRow rs1.dset index array }
    match bidictPut rs2.references (some id_) index with
    | .error e => (.error e, rs2, nu1)
    | .ok b => (.ok item2, { rs2 with references := b }, nu1)

def set_item (rs : RefSt) (nu : Nat) (item : Dict) (location : Loc)
    (pop : Bool) : Except Err Dict × RefSt × Nat :=
  match location with
  | .uid u =>
    match get_index rs u with
    | (.error e, rs1) => (.error e, rs1, nu)
    | (.ok index, rs1) => set_item_write rs1 nu item u index pop
  | .idx i =>
    match get_id rs (Int.ofNat i) with
    | (.error e, rs1) => (.error e, rs1, nu)
    | (.ok (some u), rs1) => set_item_write rs1 nu item u i pop
    | (.ok none, rs1) => set_item_write rs1 (nu + 1) item nu i pop
    -- in the last case `id_ = uuid.uuid4()` mints the fresh id `nu`

/-- `get_references(item)` for a single item: a UUID resolves to a location
via `get_index`; an integer or tuple location resolves to an id via
`get_id`. -/
def get_references_uid (rs : RefSt) (u : Nat) : Except Err Nat × RefSt :=
  get_index rs u

def get_references_idx (rs : RefSt) (i : Int) : Except Err RefKey × RefSt :=
  get_id rs i

end HDF5referenceDataset

-- ==========================================================================
-- HDF5linkedDatasets / HDF5hierarchicalDatasets / HDF5eventLogger
-- ==========================================================================

/-- Generic lookup in an insertion-ordered string-keyed association list. -/
def assocGet {α : Type} (l : List (String × α)) (k : String) : Option α :=
  (l.find? (fun p => p.1 = k)).map Prod.snd

/-- The combined state of one `HDF5eventLogger`'s storage engine.

In the source, `HDF5hierarchicalDatasets.parent_dataset`, the members of
`child_datasets`, and the datasets held by the `HDF5referenceDataset`s in
`dataset_links.references` are the *same* `HDF5dataset` objects; the single
source of truth here is the `RefSt` stored per name in `links`
(`dataset_links.references`), and the parent dataset is `links[parent_name]`.
`nextUUID` is the `uuid.uuid4()` generator, modelled as a counter producing
distinct ids. -/
structure LogSt where
  links : List (String × RefSt)      -- HDF5linkedDatasets.references
  parent_name : String
  child_name_field : String          -- hierarchy child_name ("Type")
  parent_link_name : String          -- hierarchy link_name ("LinkID")
  child_datasets : List String       -- keys of hierarchy.child_datasets
  nextUUID : Nat
deriving DecidableEq, Repr

/-- Run a reference-dataset operation on the dataset registered under
`name`, raising `KeyError` when unregistered (`self.references[name]`). -/
def onRef {α : Type} (st : LogSt) (name : String)
    (f : RefSt → Except Err α × RefSt) : Except Err α × LogSt :=
  match assocGet st.links name with
  | none => (.error .keyError, st)
  | some rs =>
    match f rs with
    | (r, rs1) =>
      (r, { st with links :=
        st.links.map (fun p => if p.1 = name then (name, rs1) else p) })

/-- Like `onRef` but for operations that also consume the uuid counter. -/
def onRefNu {α : Type} (st : LogSt) (name : String)
    (f : RefSt → Nat → Except Err α × RefSt × Nat) : Except Err α × LogSt :=
  match assocGet st.links name with
  | none => (.error .keyError, st)
  | some rs =>
    match f rs st.nextUUID with
    | (r, rs1, nu1) =>
      (r, { st with
        links := st.links.map (fun p => if p.1 = name then (name, rs1) else p),
        nextUUID := nu1 })

namespace HDF5linkedDatasets

open HDF5referenceDataset

/-- A location given to `get_linked_data`/`set_linked_data`: a UUID string,
a `uuid.UUID`, or a row index. -/
inductive LinkLoc where
  | str (s : String)
  | uid (u : Nat)
  | idx (i : Nat)
deriving DecidableEq, Repr

/-- `add_datset(name, dataset, link_name)` (sic): register a new
`HDF5referenceDataset` over `dataset`, overwriting the entry when the name
is already registered. -/
def add_datset (st : LogSt) (name : String) (dset : Dset)
    (link_name : String) : Except Err Unit × LogSt :=
  match construct dset link_name with
  | .error e => (.error e, st)
  | .ok rs =>
    if st.links.any (fun p => p.1 = name) then
      let l1 := st.links.map (fun p => if p.1 = name then (name, rs) else p)
      (.ok (), { st with links := l1 })
    else
      (.ok (), { st with links := st.links ++ [(name, rs)] })

/-- The per-dataset loop of `new_link`. -/
def new_link_go (st : LogSt) (names : List String) (id_ : Nat) :
    Except Err Unit × LogSt :=
  match names with
  | [] => (.ok (), st)
  | n :: rest =>
    match onRef st n (fun rs => new_reference rs id_) with
    | (.error e, st1) => (.error e, st1)
    | (.ok _, st1) => new_link_go st1 rest id_

/-- `new_link(locations, axis=0, id_=None)`: allocate a fresh row carrying
one shared UUID in the named datasets (all registered datasets when
`locations` is empty).  Not atomic: a failure partway leaves the earlier
datasets grown (the partially updated state is returned with the error). -/
def new_link (st : LogSt) (locations : List String) (id? : Option Nat) :
    Except Err Nat × LogSt :=
  let p : Nat × LogSt :=
    match id? with
    | none => (st.nextUUID, { st with nextUUID := st.nextUUID + 1 })
    | some i => (i, st)
  let names := if locations.isEmpty then p.2.links.map Prod.fst else locations
  match new_link_go p.2 names p.1 with
  | (.error e, st2) => (.error e, st2)
  | (.ok _, st2) => (.ok p.1, st2)

/-- `get_index(name, id_)`. -/
def get_index (st : LogSt) (name : String) (id_ : Nat) :
    Except Err Nat × LogSt :=
  onRef st name (fun rs => get_references_uid rs id_)

/-- `get_id(name, index)`. -/
def get_id (st : LogSt) (name : String) (index : Int) :
    Except Err RefKey × LogSt :=
  onRef st name (fun rs => get_references_idx rs index)

/-- The all-registered-datasets loop of `get_indices`: keep the datasets
that contain the id (`id_ in references` calls `find_index`, whose
`KeyError` on a duplicated id propagates out of `__contains__`). -/
def get_indices_all (st : LogSt) (names : List String) (id_ : Nat)
    (acc : List (String × Nat)) :
    Except Err (List (String × Nat)) × LogSt :=
  match names with
  | [] => (.ok acc, st)
  | n :: rest =>
    match assocGet st.links n with
    | none => (.error .keyError, st)
    | some rs =>
      match find_index rs id_ with
      | .error e => (.error e, st)
      | .ok none => get_indices_all st rest id_ acc
      | .ok (some _) =>
        match get_index st n id_ with
        | (.error e, st1) => (.error e, st1)
        | (.ok i, st1) => get_indices_all st1 rest id_ (acc ++ [(n, i)])

/-- The named-datasets loop of `get_indices`. -/
def get_indices_named (st : LogSt) (names : List String) (id_ : Nat)
    (acc : List (String × Nat)) :
    Except Err (List (String × Nat)) × LogSt :=
  match names with
  | [] => (.ok acc, st)
  | n :: rest =>
    match get_index st n id_ with
    | (.error e, st1) => (.error e, st1)
    | (.ok i, st1) => get_indices_named st1 rest id_ (acc ++ [(n, i)])

/-- `get_indices(id_, datasets=None)`.  A `None` id (which `get_id` can
return for an unparsable reference field) fails in both branches of the
source (`__contains__` raises `KeyError` on a non-UUID, and
`get_references` returns nothing so `result[0]` raises `IndexError`). -/
def get_indices (st : LogSt) (id_ : RefKey) (datasets : Option (List String)) :
    Except Err (List (String × Nat)) × LogSt :=
  match id_ with
  | none =>
    match datasets with
    | none => (.error .keyError, st)
    | some _ => (.error .indexError, st)
  | some u =>
    match datasets with
    | none => get_indices_all st (st.links.map Prod.fst) u []
    | some ds => get_indices_named st ds u []

/-- `get_linked_indices(name, index, datasets)`. -/
def get_linked_indices (st : LogSt) (name : String) (index : Int)
    (datasets : Option (List String)) :
    Except Err (List (String × Nat)) × LogSt :=
  match get_id st name index with
  | (.error e, st1) => (.error e, st1)
  | (.ok id_, st1) => get_indices st1 id_ datasets

/-- Collect `self.references[name][child_index]` for each valid child. -/
def get_linked_data_children (st : LogSt) (pairs : List (String × Nat))
    (acc : List (String × Dict)) :
    Except Err (List (String × Dict)) × LogSt :=
  match pairs with
  | [] => (.ok acc, st)
  | (n, i) :: rest =>
    match onRef st n (fun rs => get_item rs (.idx i)) with
    | (.error e, st1) => (.error e, st1)
    | (.ok d, st1) => get_linked_data_children st1 rest (acc ++ [(n, d)])

/-- `get_linked_data(name, location, children=None, dict_=True)`: resolve
the location to a UUID (or to linked indices from a row index), restrict to
the requested children, drop the queried dataset itself, and return the
per-dataset records as dicts.  (The `dict_=False` tuple form is not used by
the event logger and is not modelled.) -/
def get_linked_data (st : LogSt) (name : String) (location : LinkLoc)
    (children : Option (List String)) :
    Except Err (List (String × Dict)) × LogSt :=
  -- `if isinstance(location, str): location = uuid.UUID(location)`
  let normalized : Except Err (Sum Nat Nat) :=
    match location with
    | .str s =>
      match parseUUID s with
      | none => .error .valueError
      | some u => .ok (.inl u)
    | .uid u => .ok (.inl u)
    | .idx i => .ok (.inr i)
  match normalized with
  | .error e => (.error e, st)
  | .ok loc =>
    let step : Except Err (List (String × Nat)) × LogSt :=
      match loc with
      | .inl u => get_indices st (some u) none
      | .inr i => get_linked_indices st name (Int.ofNat i) none
    match step with
    | (.error e, st1) => (.error e, st1)
    | (.ok child_indices, st1) =>
      let valid : Except Err (List (String × Nat)) :=
        match children with
        | none => .ok child_indices
        | some cs =>
          cs.foldr (fun c acc =>
            match acc with
            | .error e => .error e
            | .ok l =>
              match assocGet child_indices c with
              | none => .error .keyError
              | some i => .ok ((c, i) :: l)) (.ok [])
      match valid with
      | .error e => (.error e, st1)
      | .ok valid_children =>
        let valid_children := valid_children.filter (fun p => p.1 ≠ name)
        let main : Except Err Dict × LogSt :=
          match loc with
          | .inl u => onRef st1 name (fun rs => get_item rs (.uid u))
          | .inr i => onRef st1 name (fun rs => get_item rs (.idx i))
        match main with
        | (.error e, st2) => (.error e, st2)
        | (.ok d0, st2) =>
          get_linked_data_children st2 valid_children [(name, d0)]

/-- The child loop of `set_linked_data`: the same (mutated, popped) item
dict flows through the consecutive `set_item` calls. -/
def set_linked_data_children (st : LogSt) (pairs : List (String × Nat))
    (data : Dict) : Except Err Dict × LogSt :=
  match pairs with
  | [] => (.ok data, st)
  | (n, i) :: rest =>
    match onRefNu st n (fun rs nu => set_item rs nu data (.idx i) true) with
    | (.error e, st1) => (.error e, st1)
    | (.ok data1, st1) => set_linked_data_children st1 rest data1

/-- `set_linked_data(name, location, item, children=None)`: resolve the
main row and the linked child rows sharing its UUID, then split the item
across them by field ownership (each `set_item` pops the fields its schema
consumes). -/
def set_linked_data (st : LogSt) (name : String) (location : LinkLoc)
    (item : Dict) (children : Option (List String)) :
    Except Err Dict × LogSt :=
  let normalized : Except Err (Sum Nat Nat) :=
    match location with
    | .str s =>
      match parseUUID s with
      | none => .error .valueError
      | some u => .ok (.inl u)
    | .uid u => .ok (.inl u)
    | .idx i => .ok (.inr i)
  match normalized with
  | .error e => (.error e, st)
  | .ok loc =>
    let step : Except Err (RefKey × Nat) × LogSt :=
      match loc with
      | .inl u =>
        match get_index st name u with
        | (.error e, st1) => (.error e, st1)
        | (.ok main_index, st1) => (.ok (some u, main_index), st1)
      | .inr i =>
        match get_id st name (Int.ofNat i) with
        | (.error e, st1) => (.error e, st1)
        | (.ok id_, st1) => (.ok (id_, i), st1)
    match step with
    | (.error e, st1) => (.error e, st1)
    | (.ok (id_, main_index), st1) =>
      match get_indices st1 id_ children with
      | (.error e, st2) => (.error e, st2)
      | (.ok child_indices, st2) =>
        let valid : Except Err (List (String × Nat)) :=
          match children with
          | none => .ok child_indices
          | some cs =>
            cs.foldr (fun c acc =>
              match acc with
              | .error e => .error e
              | .ok l =>
                match assocGet child_indices c with
                | none => .error .keyError
                | some i => .ok ((c, i) :: l)) (.ok [])
        match valid with
        | .error e => (.error e, st2)
        | .ok valid_children =>
          let valid_children := valid_children.filter (fun p => p.1 ≠ name)
          -- data = item.copy(); main row first, children after
          match onRefNu st2 name
              (fun rs nu => set_item rs nu item (.idx main_index) true) with
          | (.error e, st3) => (.error e, st3)
          | (.ok data1, st3) =>
            set_linked_data_children st3 valid_children data1

/-- `append_linked_data(name, item, children, axis=0)`: allocate one new
linked row across `{name} | set(children)` and write the item into it. -/
def append_linked_data (st : LogSt) (name : String) (item : Dict)
    (children : List String) : Except Err Dict × LogSt :=
  let datasets := name :: children.filter (fun c => c ≠ name)
  match new_link st datasets none with
  | (.error e, st1) => (.error e, st1)
  | (.ok location, st1) =>
    set_linked_data st1 name (.uid location) item (some children)

end HDF5linkedDatasets

namespace HDF5hierarchicalDatasets

open HDF5referenceDataset HDF5linkedDatasets

/-- Read one field of a parent-array record, insisting on a string value
(the field then names a child dataset / carries a UUID string). -/
def rowFieldStr (descr : Descr) (row : Row) (f : String) :
    Except Err String :=
  match rowField descr row f with
  | some (.str s) => .ok s
  | some _ => .error .typeError
  | none => .error .keyError

/-- `add_child_dataset(name, dataset)`: register the dataset in the link
registry under the parent's link name and record it as a child. -/
def add_child_dataset (st : LogSt) (name : String) (dset : Dset) :
    Except Err Unit × LogSt :=
  match add_datset st name dset st.parent_link_name with
  | (.error e, st1) => (.error e, st1)
  | (.ok _, st1) =>
    if st1.child_datasets.contains name then (.ok (), st1)
    else (.ok (), { st1 with child_datasets := st1.child_datasets ++ [name] })

/-- `get_data(parent_ref, child_name, id_info=False)`: fetch the linked
parent and child records, merge them child-over-parent, and unless
`id_info` strip both reference fields from the merged record. -/
def get_data (st : LogSt) (parent_ref : LinkLoc) (child_name : String)
    (id_info : Bool) : Except Err Dict × LogSt :=
  match assocGet st.links st.parent_name with
  | none => (.error .keyError, st)
  | some prs =>
    match assocGet st.links child_name with
    | none => (.error .keyError, st)
    | some crs =>
      let parent_link := prs.reference_field
      let child_link := crs.reference_field
      match get_linked_data st st.parent_name parent_ref
          (some [child_name]) with
      | (.error e, st1) => (.error e, st1)
      | (.ok data, st1) =>
        match assocGet data st.parent_name with
        | none => (.error .keyError, st1)
        | some parent =>
          match assocGet data child_name with
          | none => (.error .keyError, st1)
          | some child =>
            let result := merge_dict parent child
            if id_info then (.ok result, st1)
            else (.ok (dictDrop (dictDrop result parent_link) child_link), st1)

/-- `get_items(indices)` for a single location `(i, 0)` (the shape of every
`HDF5eventLogger.__getitem__`/`get_item` access): read the parent record,
take its Type and LinkID fields, and resolve the merged record through
`get_data`. -/
def get_items_single (st : LogSt) (i : Nat) (id_info : Bool) :
    Except Err Dict × LogSt :=
  match assocGet st.links st.parent_name with
  | none => (.error .keyError, st)
  | some prs =>
    match dsetGetRow prs.dset i with
    | .error e => (.error e, st)
    | .ok row =>
      match rowFieldStr prs.dset.descr row st.child_name_field with
      | .error e => (.error e, st)
      | .ok child_name =>
        match rowFieldStr prs.dset.descr row st.parent_link_name with
        | .error e => (.error e, st)
        | .ok link_id => get_data st (.str link_id) child_name id_info

/-- The per-row loop of `get_dataset` (`recursive_looping` over the rows
selected by the boolean mask, each row contributing
`get_data(link_ids[i], child_names[i])`). -/
def get_dataset_go (st : LogSt) (descr : Descr) (rows : List Row)
    (id_info : Bool) (acc : List Dict) :
    Except Err (List Dict) × LogSt :=
  match rows with
  | [] => (.ok acc, st)
  | row :: rest =>
    match rowFieldStr descr row st.child_name_field with
    | .error e => (.error e, st)
    | .ok child_name =>
      match rowFieldStr descr row st.parent_link_name with
      | .error e => (.error e, st)
      | .ok link_id =>
        match get_data st (.str link_id) child_name id_info with
        | (.error e, st1) => (.error e, st1)
        | (.ok d, st1) => get_dataset_go st1 descr rest id_info (acc ++ [d])

/-- `get_dataset(name, id_info=False)`: raise on an unknown event type;
select the parent rows whose Type equals `name` (all rows whose Type is not
the parent's own name, when the parent is requested), and return their
merged records in row order. -/
def get_dataset (st : LogSt) (name : String) (id_info : Bool) :
    Except Err (List Dict) × LogSt :=
  if ¬ st.child_datasets.contains name ∧ name ≠ st.parent_name then
    (.error .keyError, st)
  else
    match assocGet st.links st.parent_name with
    | none => (.error .keyError, st)
    | some prs =>
      let sel :=
        if name ≠ st.parent_name then
          prs.dset.rows.filter (fun r =>
            rowField prs.dset.descr r st.child_name_field = some (.str name))
        else
          prs.dset.rows.filter (fun r =>
            rowField prs.dset.descr r st.child_name_field ≠ some (.str name))
      get_dataset_go st prs.dset.descr sel id_info []

/-- `append_item(item, children, axis=0)` with an explicit tuple of child
names (the form used by `append_event`). -/
def append_item (st : LogSt) (item : Dict) (children : List String) :
    Except Err Dict × LogSt :=
  append_linked_data st st.parent_name item children

end HDF5hierarchicalDatasets

namespace HDF5eventLogger

open HDF5referenceDataset HDF5linkedDatasets HDF5hierarchicalDatasets

def TIME_NAME : String := "Time"
def DELTA_NAME : String := "DeltaTime"
def START_NAME : String := "StartTime"
def TYPE_NAME : String := "Type"
def LINK_NAME : String := "LinkID"

/-- The keys of `EVENT_FIELDS` (`bidict(Time=0, DeltaTime=1, StartTime=2,
Type=3)`). -/
def EVENT_FIELDS : List String :=
  [TIME_NAME, DELTA_NAME, START_NAME, TYPE_NAME]

/-- `EVENT_DTYPE`: the fixed schema of the parent "Events" array. -/
def EVENT_DTYPE : Descr :=
  [(TIME_NAME, "float"), (DELTA_NAME, "float"), (START_NAME, "float"),
   (TYPE_NAME, "str"), (LINK_NAME, "str")]

/-- `event2dtype(event)`: infer a child schema from a record's values (ints
to int fields, floats and datetimes to float fields, anything else to
string fields). -/
def event2dtype (event : Dict) : Descr :=
  event.map (fun p =>
    (p.1, match p.2 with
      | .int _ => "int"
      | .float _ => "float"
      | .dt _ => "float"
      | _ => "str"))

/-- `create_event_dataset(name, dtype)` with no initial data: a fresh
resizable array of shape `(0, 1)` with the given schema. -/
def create_event_dataset (descr : Descr) : Dset :=
  { descr := descr, rows := [] }

/-- The state of a freshly constructed `HDF5eventLogger` (after
`create_file` + `construct`): the "Events" parent array with `EVENT_DTYPE`
is created and registered under its `LinkID` reference field, and there are
no child arrays yet. -/
def initLogger : LogSt :=
  { links := [("Events",
      { dset := create_event_dataset EVENT_DTYPE,
        reference_field := "LinkID", references := [] })],
    parent_name := "Events",
    child_name_field := TYPE_NAME,
    parent_link_name := LINK_NAME,
    child_datasets := [],
    nextUUID := 0 }

/-- `append_event(event, axis=0)`: on the first record of a new Type, strip
the canonical fields, add a generated `LinkID` when absent, infer the child
schema, create and register the child array; then split the record across
the parent and child arrays via `append_item`. -/
def append_event (st : LogSt) (event : Dict) : Except Err Dict × LogSt :=
  match dictGet event TYPE_NAME with
  | none => (.error .keyError, st)
  | some tv =>
    match tv with
    | .str child_name =>
      let prepared : Except Err Unit × LogSt :=
        if st.child_datasets.contains child_name then (.ok (), st)
        else
          let child_event := EVENT_FIELDS.foldl
            (fun d f => if (dictGet d f).isSome then dictDrop d f else d)
            event
          let withLink : Dict × LogSt :=
            if (dictGet child_event LINK_NAME).isSome then (child_event, st)
            else
              (dictSet child_event LINK_NAME (.str (uuidStr st.nextUUID)),
               { st with nextUUID := st.nextUUID + 1 })
          let child_dtype := event2dtype withLink.1
          let child_dataset := create_event_dataset child_dtype
          add_child_dataset withLink.2 child_name child_dataset
      match prepared with
      | (.error e, st1) => (.error e, st1)
      | (.ok _, st1) => append_item st1 event [child_name]
    | _ => (.error .typeError, st)

/-- `HDF5eventLogger.get_item(item)` for an integer index `i` (i.e.
`logger[i]`, which forwards `(i, 0)` to `hierarchy.get_items`). -/
def get_item (st : LogSt) (i : Nat) : Except Err Dict × LogSt :=
  get_items_single st i false

/-- `get_event_type(name, id_info=False)`. -/
def get_event_type (st : LogSt) (name : String) :
    Except Err (List Dict) × LogSt :=
  get_dataset st name false

/-- The Time column of the parent "Events" array
(`self.Events[self.TIME_NAME]`), as the rational timestamps it stores. -/
def eventTimes (st : LogSt) : List ℚ :=
  match assocGet st.links st.parent_name with
  | none => []
  | some prs =>
    prs.dset.rows.map (fun r =>
      match rowField prs.dset.descr r TIME_NAME with
      | some (.float q) => q
      | _ => 0)

end HDF5eventLogger

namespace HDF5eventLogger

/-- Python's `bisect.bisect_left(times, t)` on a sorted list: the leftmost
insertion point, i.e. the number of entries strictly below `t`.  (On
unsorted input the library's binary search is unspecified; the event
logger's contract requires the Time column to be sorted.) -/
def bisect_left (times : List ℚ) (t : ℚ) : Nat :=
  times.countP (fun x => x < t)

/-- `find_event(time_, type_=None, bisect_="bisect")`, restricted to the
index computation over the selected stream's Time column.  The returned
index is an `Int` because an empty column yields `-1`, as does an unknown
mode.  Mirrors lines 1494-1508 of the source: clamp the insertion point to
the last row; keep it on an exact match; in "bisect" mode step back when
the left neighbour is at least as close (`np.argmin` takes the first
minimum); in "left" mode step back one; in "right" mode keep it. -/
def find_event_index (times : List ℚ) (t : ℚ) (mode : String) : Int :=
  let n := times.length
  let index := bisect_left times t
  if index ≥ n then (index : Int) - 1
  else if times.getD index 0 = t then (index : Int)
  else if mode = "bisect" then
    if 0 < index then
      let d1 := |times.getD (index - 1) 0 - t|
      let d2 := |times.getD index 0 - t|
      if d1 ≤ d2 then ((index : Int) - 1) else (index : Int)
    else (index : Int)
  else if mode = "left" then
    if 0 < index then ((index : Int) - 1) else (index : Int)
  else if mode = "right" then (index : Int)
  else -1

/-- The row numbers adjacent to the binary-search insertion point of `t`
(the insertion point's left neighbour and the insertion point itself, kept
within bounds). -/
def neighborIndices (times : List ℚ) (t : ℚ) : List Nat :=
  let ip := bisect_left times t
  (if 0 < ip then [ip - 1] else []) ++
    (if ip < times.length then [ip] else [])

/-- `find_event_range(start, end, type_=None)`: the pair
`(find_event(start, "right"), find_event(end, "left"))`; the source returns
`range(first, last + 1)` and the corresponding event slice. -/
def find_event_range (times : List ℚ) (start stop : ℚ) : Int × Int :=
  (find_event_index times start "right", find_event_index times stop "left")

end HDF5eventLogger

-- ==========================================================================
-- HDF5container attribute machinery and the HDF5dataset proxy
-- ==========================================================================

namespace HDF5container

/-- The open/closed state and caches of one `HDF5container`.

`fattrs`/`fdsets` are the contents of the underlying HDF5 file
(`h5_fobj.attrs` and the file's datasets); `fileAttrNames` is
`self._file_attrs`; `dsetNamesC` is `self._datasets`; `attrCache` holds the
per-attribute caches (`self._<key>`, possibly Python `None`); `dsetCache`
holds the `HDF5dataset` proxies (`self._<name>`), identified by the dataset
name they re-resolve (proxy identity is by name, section 4.2). -/
structure Container where
  isOpen : Bool
  isUpdating : Bool
  fattrs : List (String × Value)
  fdsets : List (String × Dset)
  fileAttrNames : List String
  dsetNamesC : List String
  attrCache : List (String × Option Value)
  dsetCache : List (String × String)
deriving DecidableEq, Repr

/-- Assignment into a string-keyed association-list cache. -/
def cachePut {α : Type} (l : List (String × α)) (k : String) (v : α) :
    List (String × α) :=
  if l.any (fun p => p.1 = k) then
    l.map (fun p => if p.1 = k then (k, v) else p)
  else l ++ [(k, v)]

/-- `open(mode="a")`: a no-op when already open; otherwise open the file
and run `load_attributes()` / `load_datasets()`, which clear the caches and
repopulate them from the file's contents. -/
def containerOpen (c : Container) : Container :=
  if c.isOpen then c
  else
    { c with
      isOpen := true,
      fileAttrNames := c.fattrs.map Prod.fst,
      attrCache := c.fattrs.map (fun p => (p.1, some p.2)),
      dsetNamesC := c.fdsets.map Prod.fst,
      dsetCache := c.fdsets.map (fun p => (p.1, p.1)) }

/-- `close()`: flush and close; idempotent. -/
def containerClose (c : Container) : Container :=
  { c with isOpen := false }

/-- `get_file_attribute(item)`: scoped access (open if closed, restore on
exit).  Inside, when the file has the attribute and the cache is `None` or
the always-refresh policy is on, refresh the cache from the file (an
`AttributeError` from an entirely missing cache slot is caught and only
warned about).  Finally answer from the cache; a missing slot raises
`AttributeError`, modelled by the `Except` error after the state was
restored. -/
def get_file_attribute (c : Container) (item : String) :
    Except Err Value × Container :=
  let op := c.isOpen
  let c1 := containerOpen c
  let c2 :=
    if (c1.fattrs.any (fun p => p.1 = item)) then
      match assocGet c1.attrCache item with
      | none => c1   -- AttributeError inside the condition: caught, warned
      | some cur =>
        if cur = none ∨ c1.isUpdating then
          { c1 with attrCache :=
              cachePut c1.attrCache item ((assocGet c1.fattrs item).map id) }
        else c1
    else c1
  let c3 := if ¬ op then containerClose c2 else c2
  let res : Except Err Value :=
    match assocGet c3.attrCache item with
    | some (some v) => .ok v
    | some none => .error .typeError   -- cached Python None
    | none => .error .keyError         -- AttributeError
  (res, c3)

/-- `set_file_attribute(key, value)`: scoped access; record the name, then
attempt the file write (`wok` says which writes the underlying library
accepts).  On failure warn and leave cache and file untouched; on success
write through and update the cache.  The returned list holds the emitted
warnings, and the function is total: every exception of the write is caught
by the `except` clause. -/
def set_file_attribute (wok : String → Value → Bool) (c : Container)
    (key : String) (value : Value) : Container × List String :=
  let op := c.isOpen
  let c1 := containerOpen c
  let c2 :=
    if c1.fileAttrNames.contains key then c1
    else { c1 with fileAttrNames := c1.fileAttrNames ++ [key] }
  let step : Container × List String :=
    if wok key value then
      ({ c2 with
          fattrs := cachePut c2.fattrs key value,
          attrCache := cachePut c2.attrCache key (some value) }, [])
    else (c2, ["Could not set attribute due to error"])
  (if ¬ op then containerClose step.1 else step.1, step.2)

/-- One iteration of the `add_file_attributes` loop: record the name, then
try the write, warning and leaving the cache alone on failure (the same
try/except/else body as `set_file_attribute`). -/
def add_attr_one (wok : String → Value → Bool) (c : Container)
    (key : String) (value : Value) (ws : List String) :
    Container × List String :=
  let c2 :=
    if c.fileAttrNames.contains key then c
    else { c with fileAttrNames := c.fileAttrNames ++ [key] }
  if wok key value then
    ({ c2 with
        fattrs := cachePut c2.fattrs key value,
        attrCache := cachePut c2.attrCache key (some value) }, ws)
  else (c2, ws ++ ["Could not set attribute due to error"])

/-- The per-item loop of `add_file_attributes`. -/
def add_file_attributes_go (wok : String → Value → Bool) (c : Container)
    (items : List (String × Value)) (ws : List String) :
    Container × List String :=
  match items with
  | [] => (c, ws)
  | (key, value) :: rest =>
    match add_attr_one wok c key value ws with
    | (c3, ws3) => add_file_attributes_go wok c3 rest ws3

/-- `add_file_attributes(items)`: scoped access around a per-item loop with
the same try/except/else body as `set_file_attribute` (a name colliding
with a dataset additionally warns up front). -/
def add_file_attributes (wok : String → Value → Bool) (c : Container)
    (items : List (String × Value)) : Container × List String :=
  let ws0 : List String :=
    if items.any (fun p => c.dsetNamesC.contains p.1) then
      ["Attribute name already exists"]
    else []
  let op := c.isOpen
  let c1 := containerOpen c
  let step := add_file_attributes_go wok c1 items ws0
  (if ¬ op then containerClose step.1 else step.1, step.2)

/-- `get_dataset(item)`: scoped access; when the file has the dataset and
the refresh policy is on, rebuild the proxy; finally answer from the proxy
cache (raising `AttributeError` when the slot is missing). -/
def get_dataset (c : Container) (item : String) :
    Except Err String × Container :=
  let op := c.isOpen
  let c1 := containerOpen c
  let c2 :=
    if (c1.fdsets.any (fun p => p.1 = item)) ∧ c1.isUpdating then
      { c1 with dsetCache := cachePut c1.dsetCache item item }
    else c1
  let c3 := if ¬ op then containerClose c2 else c2
  let res : Except Err String :=
    match assocGet c3.dsetCache item with
    | some p => .ok p
    | none => .error .keyError
  (res, c3)

/-- `set_dataset(name, data)`: scoped access; overwrite the data of a known
dataset, or register the name and `require_dataset` a new one; on success
cache a fresh proxy. -/
def set_dataset (c : Container) (name : String) (data : Dset) : Container :=
  let op := c.isOpen
  let c1 := containerOpen c
  let c2 :=
    if c1.dsetNamesC.contains name then
      { c1 with fdsets := cachePut c1.fdsets name data }
    else
      { c1 with
        dsetNamesC := c1.dsetNamesC ++ [name],
        fdsets := cachePut c1.fdsets name data }
  let c3 := { c2 with dsetCache := cachePut c2.dsetCache name name }
  if ¬ op then containerClose c3 else c3

end HDF5container

namespace HDF5dataset

open HDF5container

/-- An `HDF5dataset` proxy: a stable dataset name, whether `self._dataset`
is currently bound to a raw handle, and the `_container_was_open` flag
captured by `open()` (Python initialises it to `None`). -/
structure Proxy where
  bound : Bool
  pname : String
  containerWasOpen : Option Bool
deriving DecidableEq, Repr

/-- `HDF5dataset.open()`: capture whether the container was open; when the
raw handle is unbound, open the container and bind it. -/
def proxyOpen (c : Container) (p : Proxy) : Container × Proxy :=
  let p1 := { p with containerWasOpen := some c.isOpen }
  if p.bound then (c, p1)
  else (containerOpen c, { p1 with bound := true })

/-- `HDF5dataset.close()`: close the container unless it was open when
`open()` captured its state. -/
def proxyClose (c : Container) (p : Proxy) : Container :=
  if p.containerWasOpen = some true then c else containerClose c

/-- `dataset[item]` on the proxy: read through the bound handle, or inside
a `with self` block (open, read, close). -/
def proxyGetItem (c : Container) (p : Proxy) (i : Nat) :
    Except Err Row × Container × Proxy :=
  let read : Container → Except Err Row := fun cc =>
    match assocGet cc.fdsets p.pname with
    | none => .error .keyError
    | some d => dsetGetRow d i
  if p.bound then (read c, c, p)
  else
    let s := proxyOpen c p
    let r := read s.1
    (r, proxyClose s.1 s.2, s.2)

/-- The write against the underlying file performed by the proxy's
`__setitem__` (`self._container.h5_fobj[self._name][key] = value`). -/
def proxyWrite (cc : Container) (pname : String) (i : Nat) (row : Row) :
    Except Err Unit × Container :=
  match assocGet cc.fdsets pname with
  | none => (.error .keyError, cc)
  | some d =>
    (.ok (), { cc with fdsets := cachePut cc.fdsets pname (dsetSetRow d i row) })

/-- `dataset[key] = value` on the proxy: write through the bound handle, or
inside a `with self` block. -/
def proxySetItem (c : Container) (p : Proxy) (i : Nat) (row : Row) :
    Except Err Unit × Container × Proxy :=
  if p.bound then
    match proxyWrite c p.pname i row with
    | (r, c1) => (r, c1, p)
  else
    let s := proxyOpen c p
    match proxyWrite s.1 p.pname i row with
    | (r, c1) => (r, proxyClose c1 s.2, s.2)

end HDF5dataset

deriving instance DecidableEq for Except

-- ==========================================================================
-- Helper lemmas: association lists, bidict well-formedness
-- ==========================================================================

theorem assocGet_cons {α : Type} (a : String × α) (t : List (String × α))
    (k : String) :
    assocGet (a :: t) k = if a.1 = k then some a.2 else assocGet t k := by
  by_cases h : a.1 = k <;> simp [assocGet, List.find?_cons, h]

theorem assocGet_cachePut_other {α : Type} (l : List (String × α))
    (k k' : String) (v : α) (hne : k' ≠ k) :
    assocGet (HDF5container.cachePut l k v) k' = assocGet l k' := by
  unfold HDF5container.cachePut
  by_cases h : l.any (fun p => p.1 = k)
  · simp only [if_pos h]
    clear h
    induction l with
    | nil => rfl
    | cons a t ih =>
      rw [List.map_cons]
      by_cases ha : a.1 = k
      · rw [if_pos ha, assocGet_cons, assocGet_cons,
          if_neg (fun he : (k, v).1 = k' => hne he.symm),
          if_neg (fun he : a.1 = k' => hne (ha ▸ he).symm)]
        exact ih
      · rw [if_neg ha, assocGet_cons, assocGet_cons]
        by_cases hk' : a.1 = k'
        · rw [if_pos hk', if_pos hk']
        · rw [if_neg hk', if_neg hk']
          exact ih
  · simp only [if_neg h]
    induction l with
    | nil =>
      rw [List.nil_append, assocGet_cons,
        if_neg (fun he : (k, v).1 = k' => hne he.symm)]
    | cons a t ih =>
      rw [List.any_cons, Bool.or_eq_true] at h
      push_neg at h
      rw [List.cons_append, assocGet_cons, assocGet_cons]
      by_cases hk' : a.1 = k'
      · rw [if_pos hk', if_pos hk']
      · rw [if_neg hk', if_neg hk']
        exact ih h.2

theorem bidictPut_ok_iff (b : Bidict) (k : RefKey) (v : Nat) (b' : Bidict)
    (h : bidictPut b k v = .ok b') :
    (∀ p ∈ b, p.2 = v → p.1 = k) ∧
      b' = (b.filter (fun p => p.1 ≠ k)) ++ [(k, v)] := by
  unfold bidictPut at h
  by_cases hg : b.any (fun p => p.2 = v ∧ p.1 ≠ k)
  · rw [if_pos hg] at h; exact Except.noConfusion h
  · rw [if_neg hg] at h
    refine ⟨?_, (Except.ok.inj h).symm⟩
    intro p hp hpv
    by_contra hpk
    exact hg (List.any_eq_true.mpr ⟨p, hp, by simp [hpv, hpk]⟩)

theorem bidictInvPut_ok_iff (b : Bidict) (v : Nat) (k : RefKey) (b' : Bidict)
    (h : bidictInvPut b v k = .ok b') :
    (∀ p ∈ b, p.1 = k → p.2 = v) ∧
      b' = (b.filter (fun p => p.2 ≠ v)) ++ [(k, v)] := by
  unfold bidictInvPut at h
  by_cases hg : b.any (fun p => p.1 = k ∧ p.2 ≠ v)
  · rw [if_pos hg] at h; exact Except.noConfusion h
  · rw [if_neg hg] at h
    refine ⟨?_, (Except.ok.inj h).symm⟩
    intro p hp hpk
    by_contra hpv
    exact hg (List.any_eq_true.mpr ⟨p, hp, by simp [hpv, hpk]⟩)

theorem wf_bidictPut (b : Bidict) (k : RefKey) (v : Nat) (b' : Bidict)
    (hwf : BidictWF b) (h : bidictPut b k v = .ok b') : BidictWF b' := by
  obtain ⟨hguard, hb'⟩ := bidictPut_ok_iff b k v b' h
  subst hb'
  have hsubk : ((b.filter (fun p => p.1 ≠ k)).map Prod.fst).Sublist
      (b.map Prod.fst) := (List.filter_sublist b).map Prod.fst
  have hsubv : ((b.filter (fun p => p.1 ≠ k)).map Prod.snd).Sublist
      (b.map Prod.snd) := (List.filter_sublist b).map Prod.snd
  constructor
  · rw [List.map_append]
    refine List.Nodup.append (hwf.1.sublist hsubk) (by simp) ?_
    intro x hx hx'
    simp only [List.map_cons, List.map_nil, List.mem_singleton] at hx'
    subst hx'
    obtain ⟨p, hp, hpx⟩ := List.mem_map.mp hx
    have := List.mem_filter.mp hp
    simp only [ne_eq, decide_not, Bool.not_eq_true', decide_eq_false_iff_not]
      at this
    exact this.2 hpx
  · rw [List.map_append]
    refine List.Nodup.append (hwf.2.sublist hsubv) (by simp) ?_
    intro x hx hx'
    simp only [List.map_cons, List.map_nil, List.mem_singleton] at hx'
    subst hx'
    obtain ⟨p, hp, hpx⟩ := List.mem_map.mp hx
    have hf := List.mem_filter.mp hp
    simp only [ne_eq, decide_not, Bool.not_eq_true', decide_eq_false_iff_not]
      at hf
    exact hf.2 (hguard p hf.1 hpx)

theorem wf_bidictInvPut (b : Bidict) (v : Nat) (k : RefKey) (b' : Bidict)
    (hwf : BidictWF b) (h : bidictInvPut b v k = .ok b') : BidictWF b' := by
  obtain ⟨hguard, hb'⟩ := bidictInvPut_ok_iff b v k b' h
  subst hb'
  have hsubk : ((b.filter (fun p => p.2 ≠ v)).map Prod.fst).Sublist
      (b.map Prod.fst) := (List.filter_sublist b).map Prod.fst
  have hsubv : ((b.filter (fun p => p.2 ≠ v)).map Prod.snd).Sublist
      (b.map Prod.snd) := (List.filter_sublist b).map Prod.snd
  constructor
  · rw [List.map_append]
    refine List.Nodup.append (hwf.1.sublist hsubk) (by simp) ?_
    intro x hx hx'
    simp only [List.map_cons, List.map_nil, List.mem_singleton] at hx'
    subst hx'
    obtain ⟨p, hp, hpx⟩ := List.mem_map.mp hx
    have hf := List.mem_filter.mp hp
    simp only [ne_eq, decide_not, Bool.not_eq_true', decide_eq_false_iff_not]
      at hf
    exact hf.2 (hguard p hf.1 hpx)
  · rw [List.map_append]
    refine List.Nodup.append (hwf.2.sublist hsubv) (by simp) ?_
    intro x hx hx'
    simp only [List.map_cons, List.map_nil, List.mem_singleton] at hx'
    subst hx'
    obtain ⟨p, hp, hpx⟩ := List.mem_map.mp hx
    have hf := List.mem_filter.mp hp
    simp only [ne_eq, decide_not, Bool.not_eq_true', decide_eq_false_iff_not]
      at hf
    exact hf.2 hpx

theorem bidictLookup_cons (a : RefKey × Nat) (t : Bidict) (k : RefKey) :
    bidictLookup (a :: t) k =
      if a.1 = k then some a.2 else bidictLookup t k := by
  by_cases h : a.1 = k <;> simp [bidictLookup, List.find?_cons, h]

theorem bidictInvLookup_cons (a : RefKey × Nat) (t : Bidict) (v : Nat) :
    bidictInvLookup (a :: t) v =
      if a.2 = v then some a.1 else bidictInvLookup t v := by
  by_cases h : a.2 = v <;> simp [bidictInvLookup, List.find?_cons, h]

theorem bidictLookup_append_of_none (l1 l2 : Bidict) (k : RefKey)
    (h : ∀ p ∈ l1, p.1 ≠ k) :
    bidictLookup (l1 ++ l2) k = bidictLookup l2 k := by
  induction l1 with
  | nil => rfl
  | cons a t ih =>
    rw [List.cons_append, bidictLookup_cons,
      if_neg (h a (List.mem_cons_self a t))]
    exact ih (fun p hp => h p (List.mem_cons_of_mem a hp))

theorem bidictLookup_put_ok (b : Bidict) (k : RefKey) (v : Nat) (b' : Bidict)
    (h : bidictPut b k v = .ok b') : bidictLookup b' k = some v := by
  obtain ⟨_, hb'⟩ := bidictPut_ok_iff b k v b' h
  subst hb'
  rw [bidictLookup_append_of_none]
  · rw [bidictLookup_cons, if_pos rfl]
  · intro p hp
    have := List.mem_filter.mp hp
    simpa using this.2

theorem wf_bidictLookup_of_mem (b : Bidict) (hwf : BidictWF b)
    (p : RefKey × Nat) (hp : p ∈ b) : bidictLookup b p.1 = some p.2 := by
  induction b with
  | nil => simp at hp
  | cons a t ih =>
    rcases List.mem_cons.mp hp with h1 | h1
    · subst h1; rw [bidictLookup_cons, if_pos rfl]
    · have hwf' : BidictWF t :=
        ⟨(List.nodup_cons.mp hwf.1).2, (List.nodup_cons.mp hwf.2).2⟩
      have hak : a.1 ≠ p.1 := by
        intro he
        exact (List.nodup_cons.mp hwf.1).1 (he ▸ List.mem_map_of_mem Prod.fst h1)
      rw [bidictLookup_cons, if_neg hak]
      exact ih hwf' h1

theorem wf_bidictInvLookup_of_mem (b : Bidict) (hwf : BidictWF b)
    (p : RefKey × Nat) (hp : p ∈ b) : bidictInvLookup b p.2 = some p.1 := by
  induction b with
  | nil => simp at hp
  | cons a t ih =>
    rcases List.mem_cons.mp hp with h1 | h1
    · subst h1; rw [bidictInvLookup_cons, if_pos rfl]
    · have hwf' : BidictWF t :=
        ⟨(List.nodup_cons.mp hwf.1).2, (List.nodup_cons.mp hwf.2).2⟩
      have hav : a.2 ≠ p.2 := by
        intro he
        exact (List.nodup_cons.mp hwf.2).1 (he ▸ List.mem_map_of_mem Prod.snd h1)
      rw [bidictInvLookup_cons, if_neg hav]
      exact ih hwf' h1

-- WF preservation through the HDF5referenceDataset cache operations --------

theorem wf_refs_set_reference (rs : RefSt) (i : Nat) (id_ : Nat)
    (h : BidictWF rs.references) :
    BidictWF ((HDF5referenceDataset.set_reference rs i id_).2.references) := by
  unfold HDF5referenceDataset.set_reference
  split
  · exact h
  · dsimp only
    split
    · exact h
    · exact wf_bidictPut _ _ _ _ h (by assumption)

theorem wf_refs_new_reference (rs : RefSt) (id_ : Nat)
    (h : BidictWF rs.references) :
    BidictWF ((HDF5referenceDataset.new_reference rs id_).2.references) := by
  unfold HDF5referenceDataset.new_reference
  dsimp only
  have hh := wf_refs_set_reference
    { rs with dset := dsetResize rs.dset (rs.dset.rows.length + 1) }
    rs.dset.rows.length id_ h
  split
  · next e rs2 heq => rw [heq] at hh; exact hh
  · next x rs2 heq => rw [heq] at hh; exact hh

theorem wf_refs_get_index (rs : RefSt) (id_ : Nat)
    (h : BidictWF rs.references) :
    BidictWF ((HDF5referenceDataset.get_index rs id_).2.references) := by
  unfold HDF5referenceDataset.get_index
  dsimp only
  split
  · exact h
  · exact h
  · split
    · exact h
    · exact wf_bidictPut _ _ _ _ h (by assumption)

theorem wf_refs_get_id (rs : RefSt) (index : Int)
    (h : BidictWF rs.references) :
    BidictWF ((HDF5referenceDataset.get_id rs index).2.references) := by
  unfold HDF5referenceDataset.get_id
  dsimp only
  split
  · exact h
  · split
    · exact h
    · exact wf_bidictInvPut _ _ _ _ h (by assumption)

theorem wf_refs_set_item_write (rs1 : RefSt) (nu1 : Nat) (item : Dict)
    (id_ index : Nat) (pop : Bool) (h1 : BidictWF rs1.references) :
    BidictWF
      ((HDF5referenceDataset.set_item_write rs1 nu1 item id_ index
        pop).2.1.references) := by
  simp only [HDF5referenceDataset.set_item_write]
  split
  · exact h1
  · split
    · exact h1
    · exact wf_bidictPut _ _ _ _ h1 (by assumption)

theorem wf_refs_set_item (rs : RefSt) (nu : Nat) (item : Dict)
    (location : HDF5referenceDataset.Loc) (pop : Bool)
    (h : BidictWF rs.references) :
    BidictWF
      ((HDF5referenceDataset.set_item rs nu item location pop).2.1.references) := by
  unfold HDF5referenceDataset.set_item
  match location with
  | .uid u =>
    have hg := wf_refs_get_index rs u h
    dsimp only
    rcases hgi : HDF5referenceDataset.get_index rs u with ⟨r1, rs1⟩
    rw [hgi] at hg
    match r1 with
    | .error e => exact hg
    | .ok index => exact wf_refs_set_item_write rs1 nu item u index pop hg
  | .idx i =>
    have hg := wf_refs_get_id rs (Int.ofNat i) h
    dsimp only
    rcases hgi : HDF5referenceDataset.get_id rs (Int.ofNat i) with ⟨r1, rs1⟩
    rw [hgi] at hg
    match r1 with
    | .error e => exact hg
    | .ok (some u) => exact wf_refs_set_item_write rs1 nu item u i pop hg
    | .ok none => exact wf_refs_set_item_write rs1 (nu + 1) item nu i pop hg

-- Helper lemmas: container open/close bookkeeping ---------------------------

namespace HDF5container

theorem containerOpen_isOpen (c : Container) :
    (containerOpen c).isOpen = true := by
  unfold containerOpen
  by_cases h : c.isOpen = true <;> simp [h]

theorem containerOpen_of_isOpen (c : Container) (h : c.isOpen = true) :
    containerOpen c = c := by
  unfold containerOpen
  simp [h]

theorem containerOpen_fattrs (c : Container) :
    (containerOpen c).fattrs = c.fattrs := by
  unfold containerOpen
  by_cases h : c.isOpen = true <;> simp [h]

theorem restore_isOpen (op : Bool) (x : Container)
    (hx : x.isOpen = true) :
    (if ¬ op = true then containerClose x else x).isOpen = op := by
  cases op
  · simp [containerClose]
  · simpa using hx

theorem get_file_attribute_isOpen (c : Container) (item : String) :
    (get_file_attribute c item).2.isOpen = c.isOpen := by
  refine restore_isOpen c.isOpen _ ?_
  split
  · split
    · exact containerOpen_isOpen c
    · split
      · exact containerOpen_isOpen c
      · exact containerOpen_isOpen c
  · exact containerOpen_isOpen c

theorem set_file_attribute_isOpen (wok : String → Value → Bool)
    (c : Container) (key : String) (value : Value) :
    (set_file_attribute wok c key value).1.isOpen = c.isOpen := by
  refine restore_isOpen c.isOpen _ ?_
  split
  · split
    · exact containerOpen_isOpen c
    · exact containerOpen_isOpen c
  · split
    · exact containerOpen_isOpen c
    · exact containerOpen_isOpen c

theorem add_attr_one_isOpen (wok : String → Value → Bool) (c : Container)
    (key : String) (value : Value) (ws : List String) :
    (add_attr_one wok c key value ws).1.isOpen = c.isOpen := by
  simp only [add_attr_one]
  split
  · split <;> rfl
  · split <;> rfl

theorem add_file_attributes_go_isOpen (wok : String → Value → Bool)
    (items : List (String × Value)) :
    ∀ (c : Container) (ws : List String),
      (add_file_attributes_go wok c items ws).1.isOpen = c.isOpen := by
  induction items with
  | nil => intro c ws; rfl
  | cons a rest ih =>
    intro c ws
    unfold add_file_attributes_go
    rcases a with ⟨key, value⟩
    rcases hao : add_attr_one wok c key value ws with ⟨c3, ws3⟩
    have h1 : c3.isOpen = c.isOpen := by
      have h2 := add_attr_one_isOpen wok c key value ws
      rw [hao] at h2
      exact h2
    rw [ih c3 ws3, h1]

theorem add_file_attributes_isOpen (wok : String → Value → Bool)
    (c : Container) (items : List (String × Value)) :
    (add_file_attributes wok c items).1.isOpen = c.isOpen := by
  refine restore_isOpen c.isOpen _ ?_
  rw [add_file_attributes_go_isOpen]
  exact containerOpen_isOpen c

theorem get_dataset_isOpen (c : Container) (item : String) :
    (get_dataset c item).2.isOpen = c.isOpen := by
  refine restore_isOpen c.isOpen _ ?_
  split
  · exact containerOpen_isOpen c
  · exact containerOpen_isOpen c

theorem set_dataset_isOpen (c : Container) (name : String) (data : Dset) :
    (set_dataset c name data).isOpen = c.isOpen := by
  refine restore_isOpen c.isOpen _ ?_
  split
  · exact containerOpen_isOpen c
  · exact containerOpen_isOpen c

end HDF5container

namespace HDF5dataset

open HDF5container

theorem proxy_with_block_isOpen (c : Container) (p : Proxy) :
    (proxyClose (proxyOpen c p).1 (proxyOpen c p).2).isOpen = c.isOpen := by
  unfold proxyOpen proxyClose
  by_cases hb : p.bound
  · simp only [hb, if_true]
    by_cases ho : c.isOpen = true
    · simp [ho]
    · simp only [Bool.not_eq_true] at ho
      simp [ho, containerClose]
  · simp only [hb, if_false, Bool.false_eq_true]
    by_cases ho : c.isOpen = true
    · simp [ho, containerOpen_of_isOpen c ho]
    · simp only [Bool.not_eq_true] at ho
      simp [ho, containerClose]

theorem proxyGetItem_isOpen (c : Container) (p : Proxy) (i : Nat) :
    (proxyGetItem c p i).2.1.isOpen = c.isOpen := by
  unfold proxyGetItem
  by_cases hb : p.bound
  · simp [hb]
  · simp only [hb, Bool.false_eq_true, if_false]
    exact proxy_with_block_isOpen c p

theorem proxyOpen_was (c : Container) (p : Proxy) :
    (proxyOpen c p).2.containerWasOpen = some c.isOpen := by
  unfold proxyOpen
  by_cases hb : p.bound = true <;> simp [hb]

theorem proxyOpen_fst_isOpen (c : Container) (p : Proxy)
    (hb : ¬ p.bound = true) : (proxyOpen c p).1.isOpen = true := by
  unfold proxyOpen
  simp [hb, containerOpen_isOpen]

theorem proxyClose_restore (cop : Bool) (p2 : Proxy) (x : Container)
    (hwas : p2.containerWasOpen = some cop) (hx : x.isOpen = true) :
    (proxyClose x p2).isOpen = cop := by
  unfold proxyClose
  cases cop
  · rw [if_neg (by rw [hwas]; simp)]
    rfl
  · rw [if_pos hwas]
    exact hx

theorem proxyWrite_isOpen (cc : Container) (pname : String) (i : Nat)
    (row : Row) : (proxyWrite cc pname i row).2.isOpen = cc.isOpen := by
  unfold proxyWrite
  split <;> rfl

theorem proxySetItem_isOpen (c : Container) (p : Proxy) (i : Nat)
    (row : Row) :
    (proxySetItem c p i row).2.1.isOpen = c.isOpen := by
  unfold proxySetItem
  by_cases hb : p.bound = true
  · rw [if_pos hb]
    rcases hpw : proxyWrite c p.pname i row with ⟨r, c1⟩
    have h1 := proxyWrite_isOpen c p.pname i row
    rw [hpw] at h1
    exact h1
  · rw [if_neg hb]
    dsimp only
    rcases hpw : proxyWrite (proxyOpen c p).1 p.pname i row with ⟨r, c1⟩
    have h1 := proxyWrite_isOpen (proxyOpen c p).1 p.pname i row
    rw [hpw] at h1
    exact proxyClose_restore c.isOpen _ c1 (proxyOpen_was c p)
      (h1.trans (proxyOpen_fst_isOpen c p hb))

end HDF5dataset

-- Helper lemmas: attribute-write failure behaviour --------------------------

namespace HDF5container

theorem set_file_attribute_fail (wok : String → Value → Bool)
    (c : Container) (key : String) (value : Value)
    (h : wok key value = false) :
    (set_file_attribute wok c key value).2 =
        ["Could not set attribute due to error"] ∧
      (set_file_attribute wok c key value).1.attrCache =
        (containerOpen c).attrCache ∧
      (set_file_attribute wok c key value).1.fattrs = c.fattrs := by
  unfold set_file_attribute
  simp only [h, Bool.false_eq_true, if_false]
  refine ⟨trivial, ?_, ?_⟩
  · split
    · split <;> rfl
    · split <;> rfl
  · split
    · split
      · exact containerOpen_fattrs c
      · exact containerOpen_fattrs c
    · split
      · exact containerOpen_fattrs c
      · exact containerOpen_fattrs c

theorem add_attr_one_ws_fail (wok : String → Value → Bool) (c : Container)
    (key : String) (value : Value) (ws : List String)
    (hw : wok key value = false) :
    (add_attr_one wok c key value ws).2 =
      ws ++ ["Could not set attribute due to error"] := by
  simp [add_attr_one, hw]

theorem add_attr_one_ws_ok (wok : String → Value → Bool) (c : Container)
    (key : String) (value : Value) (ws : List String)
    (hw : wok key value = true) :
    (add_attr_one wok c key value ws).2 = ws := by
  simp [add_attr_one, hw]

theorem add_attr_one_cache_other (wok : String → Value → Bool)
    (c : Container) (key k : String) (value : Value) (ws : List String)
    (hne : k ≠ key) :
    assocGet (add_attr_one wok c key value ws).1.attrCache k =
      assocGet c.attrCache k := by
  simp only [add_attr_one]
  split
  · rw [show ∀ x : Container × List String, x.1.attrCache = x.1.attrCache
      from fun _ => rfl]
    dsimp only
    rw [assocGet_cachePut_other _ key k (some value) hne]
    split <;> rfl
  · split <;> rfl

theorem add_attr_one_cache_fail (wok : String → Value → Bool)
    (c : Container) (key : String) (value : Value) (ws : List String)
    (hw : wok key value = false) :
    (add_attr_one wok c key value ws).1.attrCache = c.attrCache := by
  simp only [add_attr_one, hw, Bool.false_eq_true, if_false]
  split <;> rfl

theorem add_file_attributes_go_warnings (wok : String → Value → Bool)
    (items : List (String × Value)) :
    ∀ (c : Container) (ws : List String),
      ∃ e, (add_file_attributes_go wok c items ws).2 = ws ++ e := by
  induction items with
  | nil => intro c ws; exact ⟨[], (List.append_nil ws).symm⟩
  | cons a rest ih =>
    intro c ws
    unfold add_file_attributes_go
    rcases a with ⟨key, value⟩
    rcases hao : add_attr_one wok c key value ws with ⟨c3, ws3⟩
    obtain ⟨e, he⟩ := ih c3 ws3
    by_cases hw : wok key value = true
    · have h2 := add_attr_one_ws_ok wok c key value ws hw
      rw [hao] at h2
      have h3 : ws3 = ws := h2
      exact ⟨e, by rw [he, h3]⟩
    · have h2 := add_attr_one_ws_fail wok c key value ws
        (Bool.not_eq_true _ ▸ (by simpa using hw))
      rw [hao] at h2
      have h3 : ws3 = ws ++ ["Could not set attribute due to error"] := h2
      refine ⟨"Could not set attribute due to error" :: e, ?_⟩
      rw [he, h3, List.append_assoc]
      rfl

theorem add_file_attributes_go_warn_of_fail (wok : String → Value → Bool)
    (items : List (String × Value)) (key : String) (value : Value)
    (hmem : (key, value) ∈ items) (hfail : wok key value = false) :
    ∀ (c : Container) (ws : List String),
      (add_file_attributes_go wok c items ws).2 ≠ [] := by
  induction items with
  | nil => simp at hmem
  | cons a rest ih =>
    intro c ws
    unfold add_file_attributes_go
    rcases a with ⟨k2, v2⟩
    rcases hao : add_attr_one wok c k2 v2 ws with ⟨c3, ws3⟩
    rcases List.mem_cons.mp hmem with h1 | h1
    · have hk : k2 = key := congrArg Prod.fst h1.symm
      have hv : v2 = value := congrArg Prod.snd h1.symm
      subst hk; subst hv
      have h2 := add_attr_one_ws_fail wok c k2 v2 ws hfail
      rw [hao] at h2
      have h3 : ws3 = ws ++ ["Could not set attribute due to error"] := h2
      obtain ⟨e, he⟩ := add_file_attributes_go_warnings wok rest c3 ws3
      rw [he, h3, List.append_assoc]
      simp
    · exact ih h1 c3 ws3

theorem add_file_attributes_go_cache_not_mem (wok : String → Value → Bool)
    (items : List (String × Value)) (key : String)
    (hnm : key ∉ items.map Prod.fst) :
    ∀ (c : Container) (ws : List String),
      assocGet (add_file_attributes_go wok c items ws).1.attrCache key =
        assocGet c.attrCache key := by
  induction items with
  | nil => intro c ws; rfl
  | cons a rest ih =>
    intro c ws
    unfold add_file_attributes_go
    rcases a with ⟨k2, v2⟩
    simp only [List.map_cons, List.mem_cons, not_or] at hnm
    rcases hao : add_attr_one wok c k2 v2 ws with ⟨c3, ws3⟩
    have h2 := add_attr_one_cache_other wok c k2 key v2 ws hnm.1
    rw [hao] at h2
    have h3 : assocGet c3.attrCache key = assocGet c.attrCache key := h2
    rw [ih hnm.2 c3 ws3, h3]

theorem add_file_attributes_go_cache_fail (wok : String → Value → Bool)
    (items : List (String × Value)) (key : String) (value : Value)
    (hmem : (key, value) ∈ items) (hfail : wok key value = false)
    (hnd : (items.map Prod.fst).Nodup) :
    ∀ (c : Container) (ws : List String),
      assocGet (add_file_attributes_go wok c items ws).1.attrCache key =
        assocGet c.attrCache key := by
  induction items with
  | nil => simp at hmem
  | cons a rest ih =>
    intro c ws
    unfold add_file_attributes_go
    rcases a with ⟨k2, v2⟩
    simp only [List.map_cons, List.nodup_cons] at hnd
    rcases hao : add_attr_one wok c k2 v2 ws with ⟨c3, ws3⟩
    rcases List.mem_cons.mp hmem with h1 | h1
    · have hk : k2 = key := congrArg Prod.fst h1.symm
      have hv : v2 = value := congrArg Prod.snd h1.symm
      subst hk; subst hv
      have h2 := add_attr_one_cache_fail wok c k2 v2 ws hfail
      rw [hao] at h2
      have h3 : c3.attrCache = c.attrCache := h2
      rw [add_file_attributes_go_cache_not_mem wok rest k2 hnd.1 c3 ws3, h3]
    · have hne : k2 ≠ key := by
        intro he
        exact hnd.1 (he ▸ List.mem_map_of_mem Prod.fst h1)
      have h2 := add_attr_one_cache_other wok c k2 key v2 ws
        (fun he => hne he.symm)
      rw [hao] at h2
      have h3 : assocGet c3.attrCache key = assocGet c.attrCache key := h2
      rw [ih h1 hnd.2 c3 ws3, h3]

theorem restore_attrCache (op : Bool) (x : Container) :
    (if ¬ op = true then containerClose x else x).attrCache = x.attrCache := by
  cases op <;> simp [containerClose]

end HDF5container

-- Helper lemmas: binary-search insertion points on sorted time columns ------

namespace HDF5eventLogger

theorem bisect_left_le_length (times : List ℚ) (t : ℚ) :
    bisect_left times t ≤ times.length :=
  List.countP_le_length _

theorem getD_mem (l : List ℚ) (i : Nat) (h : i < l.length) :
    l.getD i 0 ∈ l := by
  induction l generalizing i with
  | nil => simp at h
  | cons a u ih =>
    cases i with
    | zero => simp
    | succ j =>
      rw [List.getD_cons_succ]
      exact List.mem_cons_of_mem a (ih j (Nat.lt_of_succ_lt_succ h))

theorem getD_lt_of_lt_bisect_left (times : List ℚ) (t : ℚ)
    (hs : List.Sorted (· ≤ ·) times) (i : Nat)
    (hi : i < bisect_left times t) : times.getD i 0 < t := by
  induction times generalizing i with
  | nil => simp [bisect_left] at hi
  | cons a l ih =>
    rw [List.sorted_cons] at hs
    cases i with
    | zero =>
      rw [List.getD_cons_zero]
      by_contra hat
      push_neg at hat
      have hz : bisect_left (a :: l) t = 0 := by
        unfold bisect_left
        rw [List.countP_eq_zero]
        intro x hx
        rcases List.mem_cons.mp hx with h1 | h1
        · subst h1; simpa using not_lt.mpr hat
        · simpa using not_lt.mpr (le_trans hat (hs.1 x h1))
      rw [hz] at hi
      exact Nat.not_lt_zero 0 hi
    | succ j =>
      rw [List.getD_cons_succ]
      refine ih hs.2 j ?_
      have : bisect_left (a :: l) t ≤ bisect_left l t + 1 := by
        unfold bisect_left
        rw [List.countP_cons]
        split <;> omega
      omega

theorem le_getD_of_bisect_left_le (times : List ℚ) (t : ℚ)
    (hs : List.Sorted (· ≤ ·) times) (i : Nat)
    (h1 : bisect_left times t ≤ i) (h2 : i < times.length) :
    t ≤ times.getD i 0 := by
  induction times generalizing i with
  | nil => simp at h2
  | cons a l ih =>
    rw [List.sorted_cons] at hs
    cases i with
    | zero =>
      rw [List.getD_cons_zero]
      by_contra hat
      push_neg at hat
      have : 1 ≤ bisect_left (a :: l) t := by
        unfold bisect_left
        rw [List.countP_cons]
        simp [hat]
      omega
    | succ j =>
      rw [List.getD_cons_succ]
      by_cases ha : a < t
      · refine ih hs.2 j ?_ (Nat.lt_of_succ_lt_succ h2)
        have : bisect_left (a :: l) t = bisect_left l t + 1 := by
          unfold bisect_left
          rw [List.countP_cons]
          simp [ha]
        omega
      · push_neg at ha
        exact le_trans ha (hs.1 _ (getD_mem l j (Nat.lt_of_succ_lt_succ h2)))

theorem sorted_getD_lt (times : List ℚ)
    (hs : List.Sorted (· < ·) times) (i j : Nat) (hij : i < j)
    (hj : j < times.length) : times.getD i 0 < times.getD j 0 := by
  induction times generalizing i j with
  | nil => simp at hj
  | cons a l ih =>
    rw [List.sorted_cons] at hs
    cases j with
    | zero => omega
    | succ j2 =>
      rw [List.getD_cons_succ]
      cases i with
      | zero =>
        rw [List.getD_cons_zero]
        exact hs.1 _ (getD_mem l j2 (Nat.lt_of_succ_lt_succ hj))
      | succ i2 =>
        rw [List.getD_cons_succ]
        exact ih hs.2 i2 j2 (by omega) (Nat.lt_of_succ_lt_succ hj)

end HDF5eventLogger

-- ==========================================================================
-- Claim theorems
-- ==========================================================================

/-- A two-row reference dataset whose reference column has never been
written: both rows hold the empty string that fills fresh rows. -/
def twoBlankRows : RefSt :=
  { dset := { descr := [("LinkID", "str")],
              rows := [[Value.str ""], [Value.str ""]] },
    reference_field := "LinkID",
    references := [] }

/-- C2. The claim says a lookup of a never-written UUID "returns an absence
sentinel and does not raise an exception".  In the code, `find_index` does
return the absence sentinel `None`, and `get_index` catches the internal
`KeyError` and warns — but its `finally: return self.references[id_]`
then looks the id up in the (empty) `references` bidict, which raises
`KeyError` to the caller.  Evaluated on a dataset with two unwritten rows
and the never-written id 99: `find_index` yields the sentinel, while
`get_index` (and hence `get_references`) raises. -/
theorem C2_unwritten_id_raises :
    HDF5referenceDataset.find_index twoBlankRows 99 = .ok none ∧
      (HDF5referenceDataset.get_index twoBlankRows 99).1 =
        .error .keyError ∧
      (HDF5referenceDataset.get_references_uid twoBlankRows 99).1 =
        .error .keyError := by
  decide

/-- The state after forcibly assigning the same ReferenceID 7 to both rows
of `twoBlankRows` via `set_reference` (the second assignment overwrites the
bidict cache entry, leaving id 7 cached at row 1). -/
def dupIdRefs : RefSt :=
  (HDF5referenceDataset.set_reference
    ((HDF5referenceDataset.set_reference twoBlankRows 0 7).2) 1 7).2

/-- C3 counterexample.  The claim says that once two rows carry the same
ReferenceID, *every* subsequent id-to-location lookup raises.  But after
`set_reference 0 7; set_reference 1 7` the id is cached, and `get_index`
catches `find_index`'s duplicate-id `KeyError`, warns, and returns the
cached row 1 — no exception reaches the caller. -/
theorem C3_counterexample :
    2 ≤ (HDF5referenceDataset.matchIndices dupIdRefs 7).length ∧
      (HDF5referenceDataset.get_index dupIdRefs 7).1 = .ok 1 := by
  decide

/-- C3 (amended). `find_index` raises `KeyError` whenever at least two rows
match the id; `get_index` downgrades that to a warning and answers from the
cache when the id is cached (never raising), and raises `KeyError` only
when the duplicated id is not cached. -/
theorem C3_duplicate_id_lookup :
    (∀ (rs : RefSt) (id_ : Nat),
      2 ≤ (HDF5referenceDataset.matchIndices rs id_).length →
      HDF5referenceDataset.find_index rs id_ = .error .keyError) ∧
    (∀ (rs : RefSt) (id_ i : Nat),
      bidictLookup rs.references (some id_) = some i →
      ∃ j, (HDF5referenceDataset.get_index rs id_).1 = .ok j) ∧
    (∀ (rs : RefSt) (id_ : Nat),
      bidictLookup rs.references (some id_) = none →
      2 ≤ (HDF5referenceDataset.matchIndices rs id_).length →
      (HDF5referenceDataset.get_index rs id_).1 = .error .keyError) := by
  refine ⟨?_, ?_, ?_⟩
  · intro rs id_ h2
    unfold HDF5referenceDataset.find_index
    rw [if_pos (by omega)]
  · intro rs id_ i hcache
    simp only [HDF5referenceDataset.get_index]
    rcases hfi : HDF5referenceDataset.find_index rs id_ with e | oi
    · exact ⟨i, by dsimp only; rw [hcache]⟩
    · match oi with
      | none => exact ⟨i, by dsimp only; rw [hcache]⟩
      | some idx =>
        dsimp only
        rcases hbp : bidictPut rs.references (some id_) idx with e2 | b
        · exact ⟨i, by dsimp only; rw [hcache]⟩
        · exact ⟨idx, by
            dsimp only
            rw [bidictLookup_put_ok rs.references _ idx b hbp]⟩
  · intro rs id_ hcache h2
    have hfi : HDF5referenceDataset.find_index rs id_ = .error .keyError := by
      unfold HDF5referenceDataset.find_index
      rw [if_pos (by omega)]
    simp only [HDF5referenceDataset.get_index]
    rw [hfi, hcache]

/-- Witness for C3 (amended), instantiating each conjunct at concrete
inputs: the duplicated dataset `dupIdRefs` (cached at row 1), and the same
dataset with its cache cleared. -/
theorem C3_duplicate_id_lookup_witness :
    HDF5referenceDataset.find_index dupIdRefs 7 = .error .keyError ∧
      (∃ j, (HDF5referenceDataset.get_index dupIdRefs 7).1 = .ok j) ∧
      (HDF5referenceDataset.get_index
        { dupIdRefs with references := [] } 7).1 = .error .keyError :=
  ⟨C3_duplicate_id_lookup.1 dupIdRefs 7 (by decide),
   C3_duplicate_id_lookup.2.1 dupIdRefs 7 1 (by decide),
   C3_duplicate_id_lookup.2.2 { dupIdRefs with references := [] } 7
     (by decide) (by decide)⟩

/-- C9. `merge_dict` returns `dict1` overwritten by every key of `dict2`
(so in `get_data`'s parent-child merge a field present in both rows takes
the child's value), and a key absent from `dict2` keeps its `dict1` value;
the embedding is pure, so the `copy_=True` contract that neither argument
is modified holds by construction. -/
theorem C9_merge_dict_overrides (dict1 dict2 : Dict) (k : String)
    (hnd : (dictKeys dict2).Nodup) :
    (∀ v, dictGet dict2 k = some v →
      dictGet (merge_dict dict1 dict2) k = some v) ∧
    (dictGet dict2 k = none →
      dictGet (merge_dict dict1 dict2) k = dictGet dict1 k) :=
  ⟨fun v hv => dictGet_merge_dict_of_some dict1 dict2 k v hnd hv,
   fun h => dictGet_merge_dict_of_none dict1 dict2 k h⟩

/-- Witness for C9 at a concrete overlap: the child's value 2 wins on the
shared key "a", and the parent's value survives on "b". -/
theorem C9_merge_dict_overrides_witness :
    dictGet (merge_dict [("a", .int 1), ("b", .int 3)] [("a", .int 2)])
        "a" = some (.int 2) ∧
    dictGet (merge_dict [("a", .int 1), ("b", .int 3)] [("a", .int 2)])
        "b" = dictGet [("a", .int 1), ("b", .int 3)] "b" :=
  ⟨(C9_merge_dict_overrides [("a", .int 1), ("b", .int 3)] [("a", .int 2)]
      "a" (by decide)).1 (.int 2) (by decide),
   (C9_merge_dict_overrides [("a", .int 1), ("b", .int 3)] [("a", .int 2)]
      "b" (by decide)).2 (by decide)⟩

/-- C10. Every cache-inserting operation of `HDF5referenceDataset`
(`set_reference`, `set_item`, `new_reference`, `get_index`, `get_id`)
preserves the bidirectional-index invariant `BidictWF` (each cached id maps
to exactly one location and vice versa), and under that invariant a cached
pair looks up consistently in both directions. -/
theorem C10_reference_cache_bijection :
    (∀ (rs : RefSt) (i id_ : Nat), BidictWF rs.references →
      BidictWF ((HDF5referenceDataset.set_reference rs i id_).2.references)) ∧
    (∀ (rs : RefSt) (nu : Nat) (item : Dict)
        (loc : HDF5referenceDataset.Loc) (pop : Bool),
      BidictWF rs.references →
      BidictWF ((HDF5referenceDataset.set_item rs nu item loc
        pop).2.1.references)) ∧
    (∀ (rs : RefSt) (id_ : Nat), BidictWF rs.references →
      BidictWF ((HDF5referenceDataset.new_reference rs id_).2.references)) ∧
    (∀ (rs : RefSt) (id_ : Nat), BidictWF rs.references →
      BidictWF ((HDF5referenceDataset.get_index rs id_).2.references)) ∧
    (∀ (rs : RefSt) (index : Int), BidictWF rs.references →
      BidictWF ((HDF5referenceDataset.get_id rs index).2.references)) ∧
    (∀ (b : Bidict), BidictWF b → ∀ p ∈ b,
      bidictLookup b p.1 = some p.2 ∧ bidictInvLookup b p.2 = some p.1) :=
  ⟨fun rs i id_ h => wf_refs_set_reference rs i id_ h,
   fun rs nu item loc pop h => wf_refs_set_item rs nu item loc pop h,
   fun rs id_ h => wf_refs_new_reference rs id_ h,
   fun rs id_ h => wf_refs_get_index rs id_ h,
   fun rs index h => wf_refs_get_id rs index h,
   fun b hb p hp => ⟨wf_bidictLookup_of_mem b hb p hp,
     wf_bidictInvLookup_of_mem b hb p hp⟩⟩

/-- Witness for C10 at concrete inputs: each operation applied to the
blank two-row dataset (whose empty cache is trivially well-formed), and the
two-way lookup on a concrete one-entry bidict. -/
theorem C10_reference_cache_bijection_witness :
    BidictWF ((HDF5referenceDataset.set_reference twoBlankRows 0
      5).2.references) ∧
    BidictWF ((HDF5referenceDataset.set_item twoBlankRows 4
      [("LinkID", .str "")] (.idx 0) true).2.1.references) ∧
    BidictWF ((HDF5referenceDataset.new_reference twoBlankRows
      6).2.references) ∧
    BidictWF ((HDF5referenceDataset.get_index twoBlankRows 5).2.references) ∧
    BidictWF ((HDF5referenceDataset.get_id twoBlankRows 0).2.references) ∧
    (bidictLookup [((some 3 : RefKey), 0)] (some 3) = some 0 ∧
      bidictInvLookup [((some 3 : RefKey), 0)] 0 = some (some 3)) :=
  ⟨C10_reference_cache_bijection.1 twoBlankRows 0 5 (by decide),
   C10_reference_cache_bijection.2.1 twoBlankRows 4 [("LinkID", .str "")]
     (.idx 0) true (by decide),
   C10_reference_cache_bijection.2.2.1 twoBlankRows 6 (by decide),
   C10_reference_cache_bijection.2.2.2.1 twoBlankRows 5 (by decide),
   C10_reference_cache_bijection.2.2.2.2.1 twoBlankRows 0 (by decide),
   C10_reference_cache_bijection.2.2.2.2.2 [((some 3 : RefKey), 0)]
     (by decide) ((some 3 : RefKey), 0) (by decide)⟩

/-- A representative event record exercising every stored value kind: a
datetime Time/StartTime, a float DeltaTime, an int and a string
type-specific field. -/
def rtRecord : Dict :=
  [("Time", .dt 7), ("DeltaTime", .float 2), ("StartTime", .dt 5),
   ("Type", .str "Press"), ("Count", .int 3), ("Label", .str "abc")]

/-- The logger after appending `rtRecord` to a fresh log. -/
def rtState1 : LogSt := (HDF5eventLogger.append_event
  HDF5eventLogger.initLogger rtRecord).2

/-- C1 counterexample.  The claim asserts the record read back by
`get_item` equals the appended record `e` on every field except the
stripped internal id fields.  For `rtRecord`, whose Time is a datetime,
`get_item` returns the record with every value passed through the storage
conversion `item_to_np`, so its (unstripped) Time field is the float
timestamp `7.0`, which differs from the appended datetime value. -/
theorem C1_counterexample :
    (HDF5eventLogger.get_item rtState1 0).1 =
        .ok (rtRecord.map (fun p => (p.1, item_to_np p.2))) ∧
      dictGet (rtRecord.map (fun p => (p.1, item_to_np p.2))) "Time" ≠
        dictGet rtRecord "Time" := by
  decide

-- Dict and descriptor lemmas for the symbolic round trip --------------------

theorem dictGet_append_of_none (d1 d2 : Dict) (k : String)
    (h : dictGet d1 k = none) : dictGet (d1 ++ d2) k = dictGet d2 k := by
  have h1 : d1.find? (fun p => p.1 = k) = none := by
    unfold dictGet at h
    exact Option.map_eq_none'.mp h
  unfold dictGet
  rw [List.find?_append, h1, Option.none_or]

theorem dictDrop_append (d1 d2 : Dict) (k : String) :
    dictDrop (d1 ++ d2) k = dictDrop d1 k ++ dictDrop d2 k := by
  unfold dictDrop
  exact List.filter_append ..

theorem dictDrop_eq_self (d : Dict) (k : String) (h : k ∉ dictKeys d) :
    dictDrop d k = d := by
  unfold dictDrop
  refine List.filter_eq_self.mpr ?_
  intro p hp
  simp only [ne_eq, decide_not, Bool.not_eq_true', decide_eq_false_iff_not]
  intro he
  exact h (he ▸ List.mem_map_of_mem Prod.fst hp)

theorem dictDrop_cons_self (p : String × Value) (d : Dict) :
    dictDrop (p :: d) p.1 = dictDrop d p.1 := by
  unfold dictDrop
  rw [List.filter_cons]
  simp

theorem dictDrop_cons_ne (p : String × Value) (d : Dict) (k : String)
    (h : p.1 ≠ k) : dictDrop (p :: d) k = p :: dictDrop d k := by
  unfold dictDrop
  rw [List.filter_cons]
  simp [h]

theorem dictDrop_cons (k' : String) (v : Value) (d : Dict) (k : String) :
    dictDrop ((k', v) :: d) k =
      if k' = k then dictDrop d k else (k', v) :: dictDrop d k := by
  by_cases h : k' = k
  · rw [if_pos h]
    subst h
    exact dictDrop_cons_self (k', v) d
  · rw [if_neg h]
    exact dictDrop_cons_ne (k', v) d k h

theorem dictSet_append_of_not_mem (d : Dict) (k : String) (v : Value)
    (h : k ∉ dictKeys d) : dictSet d k v = d ++ [(k, v)] := by
  have hc : d.any (fun p => p.1 = k) = false := by
    rw [List.any_eq_false]
    intro p hp
    simp only [decide_eq_true_eq]
    intro he
    exact h (he ▸ List.mem_map_of_mem Prod.fst hp)
  unfold dictSet
  rw [hc]
  simp

theorem map_overwrite_eq_self (k : String) (v : Value) :
    ∀ (l : Dict), (∀ p ∈ l, p.1 = k → p.2 = v) →
      l.map (fun p => if p.1 = k then (k, v) else p) = l
  | [], _ => rfl
  | q :: t, hl => by
    rw [List.map_cons,
      map_overwrite_eq_self k v t
        (fun p hp hpk => hl p (List.mem_cons_of_mem _ hp) hpk)]
    by_cases hq : q.1 = k
    · rw [if_pos hq,
        show ((k, v) : String × Value) = q from by
          rw [← hq, ← hl q (List.mem_cons_self _ _) hq]]
    · rw [if_neg hq]

theorem dictSet_eq_self (d : Dict) (k : String) (v : Value)
    (hm : k ∈ dictKeys d) (h : ∀ p ∈ d, p.1 = k → p.2 = v) :
    dictSet d k v = d := by
  have hc : d.any (fun p => p.1 = k) = true := by
    rw [List.any_eq_true]
    obtain ⟨p, hp, hpk⟩ := List.mem_map.mp hm
    exact ⟨p, hp, by simpa using hpk⟩
  unfold dictSet
  rw [hc]
  simpa using map_overwrite_eq_self k v d h

/-- The child-schema value-to-type-name assignment of `event2dtype`. -/
def tyOf (v : Value) : String :=
  match v with
  | .int _ => "int"
  | .float _ => "float"
  | .dt _ => "float"
  | _ => "str"

theorem event2dtype_cons (p : String × Value) (d : Dict) :
    HDF5eventLogger.event2dtype (p :: d) =
      (p.1, tyOf p.2) :: HDF5eventLogger.event2dtype d := rfl

theorem event2dtype_keys (d : Dict) :
    (HDF5eventLogger.event2dtype d).map Prod.fst = dictKeys d := by
  unfold HDF5eventLogger.event2dtype dictKeys
  rw [List.map_map]
  rfl

theorem event2dtype_append (d1 d2 : Dict) :
    HDF5eventLogger.event2dtype (d1 ++ d2) =
      HDF5eventLogger.event2dtype d1 ++ HDF5eventLogger.event2dtype d2 := by
  unfold HDF5eventLogger.event2dtype
  exact List.map_append ..

/-- Writing a dict through its own inferred schema with `pop` set converts
each of its values with `item_to_np` in order and hands the remaining
schema the untouched suffix of the dict. -/
theorem dict_to_np_own_schema (suffix : Dict) (descr2 : Descr) :
    ∀ (d : Dict), (dictKeys d).Nodup →
      (∀ k ∈ dictKeys suffix, k ∉ dictKeys d) →
      dict_to_np (d ++ suffix) (HDF5eventLogger.event2dtype d ++ descr2)
          true =
        match dict_to_np suffix descr2 true with
        | .error e => .error e
        | .ok (vs, rem) => .ok (d.map (fun p => item_to_np p.2) ++ vs, rem)
  | [], _, _ => by
    simp only [List.nil_append, HDF5eventLogger.event2dtype, List.map_nil]
    rcases h : dict_to_np suffix descr2 true with e | ⟨vs, rem⟩ <;> simp
  | p :: d, hnd, hdisj => by
    have hkeys : dictKeys (p :: d) = p.1 :: dictKeys d := rfl
    rw [hkeys] at hnd hdisj
    have hnd' : (dictKeys d).Nodup := (List.nodup_cons.mp hnd).2
    have hp1d : p.1 ∉ dictKeys d := (List.nodup_cons.mp hnd).1
    have hp1s : p.1 ∉ dictKeys suffix :=
      fun hm => hdisj p.1 hm (List.mem_cons_self _ _)
    have hdisj' : ∀ k ∈ dictKeys suffix, k ∉ dictKeys d :=
      fun k hk hm => hdisj k hk (List.mem_cons_of_mem _ hm)
    have hget : dictGet (p :: (d ++ suffix)) p.1 = some p.2 := by
      rw [dictGet_cons, if_pos rfl]
    have hdrop : dictDrop (p :: (d ++ suffix)) p.1 = d ++ suffix := by
      rw [dictDrop_cons_self p (d ++ suffix), dictDrop_append,
        dictDrop_eq_self d _ hp1d, dictDrop_eq_self suffix _ hp1s]
    rw [event2dtype_cons, List.cons_append]
    simp only [dict_to_np]
    rw [hget]
    dsimp only
    simp only [List.append_eq]
    rw [hdrop, if_pos trivial,
      dict_to_np_own_schema suffix descr2 d hnd' hdisj']
    rcases h : dict_to_np suffix descr2 true with e | ⟨vs, rem⟩ <;> simp

theorem np_to_dict_append (d1 d2 : Descr) (r1 r2 : Row)
    (h : d1.length = r1.length) :
    np_to_dict (d1 ++ d2) (r1 ++ r2) =
      np_to_dict d1 r1 ++ np_to_dict d2 r2 := by
  unfold np_to_dict
  rw [List.map_append, List.zip_append (by simpa using h)]

theorem np_to_dict_event2dtype (d : Dict) :
    np_to_dict (HDF5eventLogger.event2dtype d)
        (d.map (fun p => item_to_np p.2)) =
      d.map (fun p => (p.1, item_to_np p.2)) := by
  unfold np_to_dict HDF5eventLogger.event2dtype
  rw [List.map_map]
  exact List.zip_map' (fun p => p.1) (fun p => item_to_np p.2) d

theorem merge_dict_append_right (d1 d2 d3 : Dict) :
    merge_dict d1 (d2 ++ d3) = merge_dict (merge_dict d1 d2) d3 := by
  unfold merge_dict
  exact List.foldl_append ..

theorem merge_dict_disjoint :
    ∀ (d2 d1 : Dict), (∀ k ∈ dictKeys d2, k ∉ dictKeys d1) →
      (dictKeys d2).Nodup → merge_dict d1 d2 = d1 ++ d2
  | [], d1, _, _ => by simp [merge_dict]
  | p :: t, d1, hdisj, hnd => by
    have hkeys : dictKeys (p :: t) = p.1 :: dictKeys t := rfl
    rw [hkeys] at hdisj hnd
    have h1 : merge_dict d1 (p :: t) = merge_dict (dictSet d1 p.1 p.2) t := rfl
    have hp1 : p.1 ∉ dictKeys d1 :=
      hdisj p.1 (List.mem_cons_self _ _)
    have hset : dictSet d1 p.1 p.2 = d1 ++ [p] :=
      dictSet_append_of_not_mem d1 p.1 p.2 hp1
    have hdisj' : ∀ k ∈ dictKeys t, k ∉ dictKeys (d1 ++ [p]) := by
      intro k hk
      rw [show dictKeys (d1 ++ [p]) = dictKeys d1 ++ [p.1] from by
        unfold dictKeys; simp]
      simp only [List.mem_append, List.mem_singleton, not_or]
      exact ⟨hdisj k (List.mem_cons_of_mem _ hk),
        fun he => (List.nodup_cons.mp hnd).1 (he ▸ hk)⟩
    rw [h1, hset, merge_dict_disjoint t (d1 ++ [p]) hdisj'
      (List.nodup_cons.mp hnd).2]
    simp

theorem fieldIndex_append_not_mem (d1 d2 : Descr) (k : String)
    (h : ∀ p ∈ d1, p.1 ≠ k) :
    fieldIndex (d1 ++ d2) k =
      (fieldIndex d2 k).map (fun i => i + d1.length) := by
  unfold fieldIndex
  rw [List.findIdx?_append]
  have h1 : d1.findIdx? (fun p => p.1 = k) = none := by
    rw [List.findIdx?_eq_none_iff]
    intro p hp
    simpa using h p hp
  rw [h1, Option.none_or]

theorem rowField_concat (d1 : Descr) (k ty : String) (r1 : Row) (v : Value)
    (h : ∀ p ∈ d1, p.1 ≠ k) (hlen : r1.length = d1.length) :
    rowField (d1 ++ [(k, ty)]) (r1 ++ [v]) k = some v := by
  unfold rowField
  rw [fieldIndex_append_not_mem d1 [(k, ty)] k h]
  have h2 : fieldIndex [(k, ty)] k = some 0 := by
    unfold fieldIndex
    simp [List.findIdx?]
  rw [h2]
  simp only [Option.map_some', Option.some_bind, Nat.zero_add]
  rw [← hlen]
  simp [List.get?_eq_getElem?, List.getElem?_concat_length]

theorem rowSetField_concat (d1 : Descr) (k ty : String) (r1 : Row)
    (w v : Value) (h : ∀ p ∈ d1, p.1 ≠ k) (hlen : r1.length = d1.length) :
    rowSetField (d1 ++ [(k, ty)]) (r1 ++ [w]) k v = r1 ++ [v] := by
  unfold rowSetField
  rw [fieldIndex_append_not_mem d1 [(k, ty)] k h]
  have h2 : fieldIndex [(k, ty)] k = some 0 := by
    unfold fieldIndex
    simp [List.findIdx?]
  rw [h2]
  simp only [Option.map_some', Nat.zero_add]
  rw [← hlen, List.set_append_right _ _ (le_refl _)]
  simp

-- The symbolic round trip: an arbitrary record in canonical form ------------

/-- An arbitrary event record in canonical field order: the three time
fields (any values), the Type naming the child stream, then the
type-specific payload `extra`. -/
def canonEvent (vT vD vS : Value) (cn : String) (extra : Dict) : Dict :=
  [("Time", vT), ("DeltaTime", vD), ("StartTime", vS), ("Type", .str cn)]
    ++ extra

/-- The child schema inferred for `extra` on the first append of its Type. -/
def C1cdt (extra : Dict) : Descr :=
  HDF5eventLogger.event2dtype extra ++ [("LinkID", "str")]

/-- The freshly created child reference dataset. -/
def C1crs0 (extra : Dict) : RefSt :=
  { dset := { descr := C1cdt extra, rows := [] },
    reference_field := "LinkID", references := [] }

/-- The child dataset after `new_reference` allocates its linked row. -/
def C1crs1 (extra : Dict) : RefSt :=
  { dset := ⟨C1cdt extra,
      [(HDF5eventLogger.event2dtype extra).map
        (fun p => defaultValue p.2) ++ [Value.str "1"]]⟩,
    reference_field := "LinkID", references := [(some 1, 0)] }

/-- The child dataset after `set_item` writes the payload row. -/
def C1crs2 (extra : Dict) : RefSt :=
  { dset := ⟨C1cdt extra,
      [extra.map (fun p => item_to_np p.2) ++ [Value.str "1"]]⟩,
    reference_field := "LinkID", references := [(some 1, 0)] }

/-- The parent "Events" dataset after `new_reference`. -/
def C1prs1 : RefSt :=
  { dset := ⟨HDF5eventLogger.EVENT_DTYPE,
      [[.float 0, .float 0, .float 0, .str "", .str "1"]]⟩,
    reference_field := "LinkID", references := [(some 1, 0)] }

/-- The parent "Events" dataset after `set_item` writes the canonical row. -/
def C1prs2 (vT vD vS : Value) (cn : String) : RefSt :=
  { dset := ⟨HDF5eventLogger.EVENT_DTYPE,
      [[item_to_np vT, item_to_np vD, item_to_np vS,
        Value.str cn, Value.str "1"]]⟩,
    reference_field := "LinkID", references := [(some 1, 0)] }

/-- The event-logger state after appending `canonEvent vT vD vS cn extra`
to a fresh log: one parent row and one child row, linked by id "1". -/
def C1state (vT vD vS : Value) (cn : String) (extra : Dict) : LogSt :=
  { links := [("Events", C1prs2 vT vD vS cn), (cn, C1crs2 extra)],
    parent_name := "Events",
    child_name_field := "Type",
    parent_link_name := "LinkID",
    child_datasets := [cn],
    nextUUID := 2 }

theorem C1s_keys_ne (extra : Dict) (hL : "LinkID" ∉ dictKeys extra) :
    ∀ p ∈ HDF5eventLogger.event2dtype extra, p.1 ≠ "LinkID" := by
  intro p hp he
  refine hL ?_
  rw [← event2dtype_keys]
  exact he ▸ List.mem_map_of_mem Prod.fst hp

theorem C1s_newref_child (extra : Dict) (hL : "LinkID" ∉ dictKeys extra) :
    HDF5referenceDataset.new_reference (C1crs0 extra) 1 =
      (.ok 1, C1crs1 extra) := by
  have hcols := C1s_keys_ne extra hL
  have hczrow : (C1cdt extra).map (fun p => defaultValue p.2) =
      (HDF5eventLogger.event2dtype extra).map (fun p => defaultValue p.2)
        ++ [Value.str ""] := by
    unfold C1cdt
    rw [List.map_append]
    rfl
  have hset : rowSetField (C1cdt extra)
      ((HDF5eventLogger.event2dtype extra).map (fun p => defaultValue p.2)
        ++ [Value.str ""]) "LinkID" (.str (uuidStr 1)) =
      (HDF5eventLogger.event2dtype extra).map (fun p => defaultValue p.2)
        ++ [Value.str "1"] := by
    unfold C1cdt
    exact rowSetField_concat _ _ _ _ _ _ hcols (by simp)
  simp only [HDF5referenceDataset.new_reference, C1crs0,
    HDF5referenceDataset.set_reference, dsetResize, dsetGetRow, dsetSetRow,
    List.length_nil, List.take_nil, Nat.sub_zero, List.replicate,
    List.nil_append, List.get?_cons_zero]
  rw [hczrow, hset]
  simp [C1crs1, bidictPut, List.set]

theorem dict_to_np_cons_hit (k : String) (v : Value) (ty : String)
    (rest : Dict) (drest : Descr) :
    dict_to_np ((k, v) :: rest) ((k, ty) :: drest) true =
      match dict_to_np (dictDrop rest k) drest true with
      | .error e => .error e
      | .ok (vs, it) => .ok (item_to_np v :: vs, it) := by
  simp only [dict_to_np, dictGet_cons]
  rw [if_pos trivial]
  dsimp only
  rw [if_pos trivial, dictDrop_cons_self (k, v) rest]

theorem C1s_refcol_child (extra : Dict) (hL : "LinkID" ∉ dictKeys extra)
    (r1 : Row) (hlen : r1.length = (HDF5eventLogger.event2dtype extra).length)
    (v : Value) :
    HDF5referenceDataset.refColumn
        { dset := { descr := C1cdt extra, rows := [r1 ++ [v]] },
          reference_field := "LinkID",
          references := [((some 1 : RefKey), 0)] } = [v] := by
  have hcols := C1s_keys_ne extra hL
  simp only [HDF5referenceDataset.refColumn, List.map_cons, List.map_nil]
  rw [show rowField (C1cdt extra) (r1 ++ [v]) "LinkID" = some v from
    rowField_concat _ _ _ _ _ hcols hlen]
  rfl

theorem C1s_find_id_child (extra : Dict) (hL : "LinkID" ∉ dictKeys extra) :
    HDF5referenceDataset.find_id (C1crs1 extra) 0 = .ok (some 1) := by
  have hcols := C1s_keys_ne extra hL
  have hrow : rowField (C1cdt extra)
      ((HDF5eventLogger.event2dtype extra).map (fun p => defaultValue p.2)
        ++ [Value.str "1"]) "LinkID" = some (Value.str "1") := by
    unfold C1cdt
    exact rowField_concat _ _ _ _ _ hcols (by simp)
  simp only [HDF5referenceDataset.find_id, C1crs1, dsetGetRow,
    List.get?_cons_zero]
  rw [hrow]
  rfl

theorem C1s_getid_child (extra : Dict) (hL : "LinkID" ∉ dictKeys extra) :
    HDF5referenceDataset.get_id (C1crs1 extra) (Int.ofNat 0) =
      (.ok (some 1), C1crs1 extra) := by
  simp only [HDF5referenceDataset.get_id]
  rw [show (if (Int.ofNat 0) < 0 then (C1crs1 extra).dset.rows.length - 1
      else (Int.ofNat 0).toNat) = 0 from by norm_num]
  rw [C1s_find_id_child extra hL]
  rfl

theorem C1s_getindex_child (extra : Dict) (hL : "LinkID" ∉ dictKeys extra)
    (r1 : Row)
    (hlen : r1.length = (HDF5eventLogger.event2dtype extra).length) :
    HDF5referenceDataset.get_index
        { dset := ⟨C1cdt extra, [r1 ++ [Value.str "1"]]⟩,
          reference_field := "LinkID",
          references := [((some 1 : RefKey), 0)] } 1 =
      (.ok 0,
        { dset := ⟨C1cdt extra, [r1 ++ [Value.str "1"]]⟩,
          reference_field := "LinkID",
          references := [((some 1 : RefKey), 0)] }) := by
  have hcol := C1s_refcol_child extra hL r1 hlen (Value.str "1")
  simp only [HDF5referenceDataset.get_index, HDF5referenceDataset.find_index,
    HDF5referenceDataset.matchIndices]
  rw [hcol]
  rfl

theorem C1s_np_child (extra : Dict) (hnd : (dictKeys extra).Nodup)
    (hL : "LinkID" ∉ dictKeys extra) :
    dict_to_np (extra ++ [("LinkID", Value.uid 1)]) (C1cdt extra) true =
      .ok (extra.map (fun p => item_to_np p.2) ++ [Value.str "1"], []) := by
  have hdisj : ∀ k ∈ dictKeys [("LinkID", Value.uid 1)],
      k ∉ dictKeys extra := by
    intro k hk
    have hk1 : k = "LinkID" := by simpa [dictKeys] using hk
    rw [hk1]
    exact hL
  rw [show C1cdt extra =
    HDF5eventLogger.event2dtype extra ++ [("LinkID", "str")] from rfl]
  rw [dict_to_np_own_schema [("LinkID", Value.uid 1)] [("LinkID", "str")]
    extra hnd hdisj]
  rfl

theorem C1s_setitem_child (extra : Dict) (hnd : (dictKeys extra).Nodup)
    (hL : "LinkID" ∉ dictKeys extra) :
    HDF5referenceDataset.set_item (C1crs1 extra) 2 extra (.idx 0) true =
      (.ok [], C1crs2 extra, 2) := by
  simp only [HDF5referenceDataset.set_item]
  rw [C1s_getid_child extra hL]
  dsimp only
  simp only [HDF5referenceDataset.set_item_write]
  rw [show dictSet extra (C1crs1 extra).reference_field (Value.uid 1) =
    extra ++ [("LinkID", Value.uid 1)] from
    dictSet_append_of_not_mem extra _ _ hL]
  rw [show (C1crs1 extra).dset.descr = C1cdt extra from rfl,
    C1s_np_child extra hnd hL]
  dsimp only
  simp [C1crs1, C1crs2, dsetSetRow, bidictPut]

theorem C1s_newref_parent :
    HDF5referenceDataset.new_reference
        ⟨⟨HDF5eventLogger.EVENT_DTYPE, []⟩, "LinkID", []⟩ 1 =
      (.ok 1, C1prs1) := by rfl

theorem C1s_getindex_parent :
    HDF5referenceDataset.get_index C1prs1 1 = (.ok 0, C1prs1) := by rfl

theorem C1s_getid_parent :
    HDF5referenceDataset.get_id C1prs1 (Int.ofNat 0) =
      (.ok (some 1), C1prs1) := by rfl

theorem C1s_parent_np (vT vD vS : Value) (cn : String) (extra : Dict)
    (hT : "Time" ∉ dictKeys extra) (hD : "DeltaTime" ∉ dictKeys extra)
    (hS : "StartTime" ∉ dictKeys extra) (hTy : "Type" ∉ dictKeys extra)
    (hL : "LinkID" ∉ dictKeys extra) :
    dict_to_np (canonEvent vT vD vS cn extra ++ [("LinkID", Value.uid 1)])
        HDF5eventLogger.EVENT_DTYPE true =
      .ok ([item_to_np vT, item_to_np vD, item_to_np vS,
        Value.str cn, Value.str "1"], extra) := by
  have hdropMix : ∀ f : String, f ∉ dictKeys extra → "LinkID" ≠ f →
      dictDrop (extra ++ [("LinkID", Value.uid 1)]) f =
        extra ++ [("LinkID", Value.uid 1)] := by
    intro f hf hfL
    rw [dictDrop_append, dictDrop_eq_self extra _ hf,
      dictDrop_cons_ne ("LinkID", Value.uid 1) [] f hfL]
    rfl
  have s5 : dict_to_np (extra ++ [("LinkID", Value.uid 1)])
      [("LinkID", "str")] true = .ok ([Value.str "1"], extra) := by
    simp only [dict_to_np]
    rw [dictGet_append_of_none extra _ _
      (dictGet_eq_none_of_not_mem extra _ hL)]
    rw [show dictGet [("LinkID", Value.uid 1)] "LinkID" =
      some (Value.uid 1) from rfl]
    dsimp only
    rw [if_pos trivial, dictDrop_append, dictDrop_eq_self extra _ hL,
      show dictDrop [("LinkID", Value.uid 1)] "LinkID" = [] from rfl]
    simp only [dict_to_np, List.append_nil]
    rfl
  have s4 : dict_to_np
      (("Type", Value.str cn) :: (extra ++ [("LinkID", Value.uid 1)]))
      [("Type", "str"), ("LinkID", "str")] true =
      .ok ([Value.str cn, Value.str "1"], extra) := by
    rw [dict_to_np_cons_hit, hdropMix "Type" hTy (by decide), s5]
    rfl
  have s3 : dict_to_np (("StartTime", vS) :: ("Type", Value.str cn) ::
      (extra ++ [("LinkID", Value.uid 1)]))
      [("StartTime", "float"), ("Type", "str"), ("LinkID", "str")] true =
      .ok ([item_to_np vS, Value.str cn, Value.str "1"], extra) := by
    rw [dict_to_np_cons_hit,
      dictDrop_cons_ne ("Type", Value.str cn) _ _ (by simp),
      hdropMix "StartTime" hS (by decide), s4]
  have s2 : dict_to_np (("DeltaTime", vD) :: ("StartTime", vS) ::
      ("Type", Value.str cn) :: (extra ++ [("LinkID", Value.uid 1)]))
      [("DeltaTime", "float"), ("StartTime", "float"), ("Type", "str"),
        ("LinkID", "str")] true =
      .ok ([item_to_np vD, item_to_np vS, Value.str cn, Value.str "1"],
        extra) := by
    rw [dict_to_np_cons_hit,
      dictDrop_cons_ne ("StartTime", vS) _ _ (by simp),
      dictDrop_cons_ne ("Type", Value.str cn) _ _ (by simp),
      hdropMix "DeltaTime" hD (by decide), s3]
  have s1 : dict_to_np (("Time", vT) :: ("DeltaTime", vD) ::
      ("StartTime", vS) :: ("Type", Value.str cn) ::
      (extra ++ [("LinkID", Value.uid 1)]))
      [("Time", "float"), ("DeltaTime", "float"), ("StartTime", "float"),
        ("Type", "str"), ("LinkID", "str")] true =
      .ok ([item_to_np vT, item_to_np vD, item_to_np vS, Value.str cn,
        Value.str "1"], extra) := by
    rw [dict_to_np_cons_hit,
      dictDrop_cons_ne ("DeltaTime", vD) _ _ (by simp),
      dictDrop_cons_ne ("StartTime", vS) _ _ (by simp),
      dictDrop_cons_ne ("Type", Value.str cn) _ _ (by simp),
      hdropMix "Time" hT (by decide), s2]
  rw [show canonEvent vT vD vS cn extra ++ [("LinkID", Value.uid 1)] =
    ("Time", vT) :: ("DeltaTime", vD) :: ("StartTime", vS) ::
      ("Type", Value.str cn) :: (extra ++ [("LinkID", Value.uid 1)]) from
    by simp [canonEvent]]
  exact s1

theorem C1s_keys_canon (vT vD vS : Value) (cn : String) (extra : Dict) :
    dictKeys (canonEvent vT vD vS cn extra) =
      ["Time", "DeltaTime", "StartTime", "Type"] ++ dictKeys extra := by
  simp [canonEvent, dictKeys]

theorem C1s_setitem_parent (vT vD vS : Value) (cn : String) (extra : Dict)
    (hT : "Time" ∉ dictKeys extra) (hD : "DeltaTime" ∉ dictKeys extra)
    (hS : "StartTime" ∉ dictKeys extra) (hTy : "Type" ∉ dictKeys extra)
    (hL : "LinkID" ∉ dictKeys extra) :
    HDF5referenceDataset.set_item C1prs1 2 (canonEvent vT vD vS cn extra)
        (.idx 0) true =
      (.ok extra, C1prs2 vT vD vS cn, 2) := by
  have hnotm : "LinkID" ∉ dictKeys (canonEvent vT vD vS cn extra) := by
    intro hm
    rw [C1s_keys_canon] at hm
    rcases List.mem_append.mp hm with h | h
    · revert h
      decide
    · exact hL h
  simp only [HDF5referenceDataset.set_item]
  rw [C1s_getid_parent]
  dsimp only
  simp only [HDF5referenceDataset.set_item_write]
  rw [show dictSet (canonEvent vT vD vS cn extra) C1prs1.reference_field
      (Value.uid 1) =
    canonEvent vT vD vS cn extra ++ [("LinkID", Value.uid 1)] from
    dictSet_append_of_not_mem _ _ _ hnotm]
  rw [show C1prs1.dset.descr = HDF5eventLogger.EVENT_DTYPE from rfl,
    C1s_parent_np vT vD vS cn extra hT hD hS hTy hL]
  dsimp only
  simp [C1prs1, C1prs2, dsetSetRow, bidictPut]

/-- The logger state after the child array for `cn` is created and
registered (the `prepared` stage of `append_event`). -/
def C1stA (cn : String) (extra : Dict) : LogSt :=
  ⟨[("Events", ⟨⟨HDF5eventLogger.EVENT_DTYPE, []⟩, "LinkID", []⟩),
      (cn, C1crs0 extra)],
    "Events", "Type", "LinkID", [cn], 1⟩

/-- The logger state after `new_link` allocates the shared linked row. -/
def C1stB (cn : String) (extra : Dict) : LogSt :=
  ⟨[("Events", C1prs1), (cn, C1crs1 extra)],
    "Events", "Type", "LinkID", [cn], 2⟩

/-- The logger state after the parent row is written, before the child. -/
def C1stC (vT vD vS : Value) (cn : String) (extra : Dict) : LogSt :=
  ⟨[("Events", C1prs2 vT vD vS cn), (cn, C1crs1 extra)],
    "Events", "Type", "LinkID", [cn], 2⟩

theorem C1s_construct (extra : Dict) :
    HDF5referenceDataset.construct ⟨C1cdt extra, []⟩ "LinkID" =
      .ok (C1crs0 extra) := by
  have hany : (C1cdt extra).any (fun p => p.1 = "LinkID") = true := by
    unfold C1cdt
    rw [List.any_append]
    simp
  unfold HDF5referenceDataset.construct
  dsimp only
  rw [hany]
  simp [C1crs0]

/-- The fresh logger with the uuid counter already advanced for the
generated child `LinkID` default. -/
def C1st1 : LogSt :=
  ⟨[("Events", ⟨⟨HDF5eventLogger.EVENT_DTYPE, []⟩, "LinkID", []⟩)],
    "Events", "Type", "LinkID", [], 1⟩

theorem C1s_addchild (cn : String) (extra : Dict) (hcn : cn ≠ "Events") :
    HDF5hierarchicalDatasets.add_child_dataset C1st1 cn
        ⟨C1cdt extra, []⟩ =
      (.ok (), C1stA cn extra) := by
  have hne : ("Events" : String) ≠ cn := fun h => hcn h.symm
  have hadd : HDF5linkedDatasets.add_datset C1st1 cn
      ⟨C1cdt extra, []⟩ "LinkID" =
      (.ok (), ⟨[("Events", ⟨⟨HDF5eventLogger.EVENT_DTYPE, []⟩,
          "LinkID", []⟩), (cn, C1crs0 extra)],
        "Events", "Type", "LinkID", [], 1⟩) := by
    simp only [HDF5linkedDatasets.add_datset, C1st1]
    rw [C1s_construct extra]
    simp [hne]
  simp only [HDF5hierarchicalDatasets.add_child_dataset,
    show C1st1.parent_link_name = "LinkID" from rfl]
  rw [hadd]
  simp [C1stA]

theorem C1s_newlink (cn : String) (extra : Dict) (hcn : cn ≠ "Events")
    (hL : "LinkID" ∉ dictKeys extra) :
    HDF5linkedDatasets.new_link (C1stA cn extra) ["Events", cn] none =
      (.ok 1, C1stB cn extra) := by
  have hne : ("Events" : String) ≠ cn := fun h => hcn h.symm
  have hgo : HDF5linkedDatasets.new_link_go
      ⟨[("Events", ⟨⟨HDF5eventLogger.EVENT_DTYPE, []⟩, "LinkID", []⟩),
          (cn, C1crs0 extra)],
        "Events", "Type", "LinkID", [cn], 2⟩ ["Events", cn] 1 =
      (.ok (), C1stB cn extra) := by
    simp [HDF5linkedDatasets.new_link_go, onRef, assocGet,
      HDF5referenceDataset.get_references_uid, C1s_newref_parent,
      C1s_newref_child extra hL, hne, hcn, C1stB]
  simp [HDF5linkedDatasets.new_link, C1stA, hgo]

theorem C1s_lgiE (cn : String) (extra : Dict) (hcn : cn ≠ "Events") :
    HDF5linkedDatasets.get_index (C1stB cn extra) "Events" 1 =
      (.ok 0, C1stB cn extra) := by
  simp [HDF5linkedDatasets.get_index, onRef, assocGet,
    HDF5referenceDataset.get_references_uid, C1s_getindex_parent, C1stB,
    hcn]

theorem C1s_lgiC (cn : String) (extra : Dict) (hcn : cn ≠ "Events")
    (hL : "LinkID" ∉ dictKeys extra) :
    HDF5linkedDatasets.get_index (C1stB cn extra) cn 1 =
      (.ok 0, C1stB cn extra) := by
  have hne : ("Events" : String) ≠ cn := fun h => hcn h.symm
  have hgi := C1s_getindex_child extra hL
    ((HDF5eventLogger.event2dtype extra).map (fun p => defaultValue p.2))
    (by simp)
  simp [HDF5linkedDatasets.get_index, onRef, assocGet,
    HDF5referenceDataset.get_references_uid, C1stB, C1crs1, hne, hcn, hgi]

theorem C1s_getindices (cn : String) (extra : Dict) (hcn : cn ≠ "Events")
    (hL : "LinkID" ∉ dictKeys extra) :
    HDF5linkedDatasets.get_indices (C1stB cn extra) (some 1) (some [cn]) =
      (.ok [(cn, 0)], C1stB cn extra) := by
  simp [HDF5linkedDatasets.get_indices,
    HDF5linkedDatasets.get_indices_named, C1s_lgiC cn extra hcn hL]

theorem C1s_writeparent (vT vD vS : Value) (cn : String) (extra : Dict)
    (hcn : cn ≠ "Events")
    (hT : "Time" ∉ dictKeys extra) (hD : "DeltaTime" ∉ dictKeys extra)
    (hS : "StartTime" ∉ dictKeys extra) (hTy : "Type" ∉ dictKeys extra)
    (hL : "LinkID" ∉ dictKeys extra) :
    onRefNu (C1stB cn extra) "Events"
        (fun rs nu => HDF5referenceDataset.set_item rs nu
          (canonEvent vT vD vS cn extra) (.idx 0) true) =
      (.ok extra, C1stC vT vD vS cn extra) := by
  simp [onRefNu, assocGet, C1stB, C1stC, hcn,
    C1s_setitem_parent vT vD vS cn extra hT hD hS hTy hL]

theorem C1s_writechild (vT vD vS : Value) (cn : String) (extra : Dict)
    (hcn : cn ≠ "Events") (hnd : (dictKeys extra).Nodup)
    (hL : "LinkID" ∉ dictKeys extra) :
    HDF5linkedDatasets.set_linked_data_children
        (C1stC vT vD vS cn extra) [(cn, 0)] extra =
      (.ok [], C1state vT vD vS cn extra) := by
  have hne : ("Events" : String) ≠ cn := fun h => hcn h.symm
  simp [HDF5linkedDatasets.set_linked_data_children, onRefNu, assocGet,
    C1stC, C1state, hne, hcn, C1s_setitem_child extra hnd hL]

theorem C1s_setlinked (vT vD vS : Value) (cn : String) (extra : Dict)
    (hcn : cn ≠ "Events") (hnd : (dictKeys extra).Nodup)
    (hT : "Time" ∉ dictKeys extra) (hD : "DeltaTime" ∉ dictKeys extra)
    (hS : "StartTime" ∉ dictKeys extra) (hTy : "Type" ∉ dictKeys extra)
    (hL : "LinkID" ∉ dictKeys extra) :
    HDF5linkedDatasets.set_linked_data (C1stB cn extra) "Events" (.uid 1)
        (canonEvent vT vD vS cn extra) (some [cn]) =
      (.ok [], C1state vT vD vS cn extra) := by
  simp [HDF5linkedDatasets.set_linked_data, assocGet, hcn,
    C1s_lgiE cn extra hcn, C1s_getindices cn extra hcn hL,
    C1s_writeparent vT vD vS cn extra hcn hT hD hS hTy hL,
    C1s_writechild vT vD vS cn extra hcn hnd hL]

theorem C1s_append (vT vD vS : Value) (cn : String) (extra : Dict)
    (hcn : cn ≠ "Events") (hnd : (dictKeys extra).Nodup)
    (hT : "Time" ∉ dictKeys extra) (hD : "DeltaTime" ∉ dictKeys extra)
    (hS : "StartTime" ∉ dictKeys extra) (hTy : "Type" ∉ dictKeys extra)
    (hL : "LinkID" ∉ dictKeys extra) :
    HDF5eventLogger.append_event HDF5eventLogger.initLogger
        (canonEvent vT vD vS cn extra) =
      (.ok [], C1state vT vD vS cn extra) := by
  have hgetty : dictGet (canonEvent vT vD vS cn extra) "Type" =
      some (Value.str cn) := by
    simp [canonEvent, dictGet_cons]
  have hstrip : HDF5eventLogger.EVENT_FIELDS.foldl
      (fun d f => if (dictGet d f).isSome then dictDrop d f else d)
      (canonEvent vT vD vS cn extra) = extra := by
    simp [HDF5eventLogger.EVENT_FIELDS, HDF5eventLogger.TIME_NAME,
      HDF5eventLogger.DELTA_NAME, HDF5eventLogger.START_NAME,
      HDF5eventLogger.TYPE_NAME, canonEvent, dictGet_cons, dictDrop_cons,
      dictDrop_eq_self extra "Time" hT,
      dictDrop_eq_self extra "DeltaTime" hD,
      dictDrop_eq_self extra "StartTime" hS,
      dictDrop_eq_self extra "Type" hTy]
  have hset : dictSet extra "LinkID" (Value.str (uuidStr 0)) =
      extra ++ [("LinkID", Value.str "0")] := by
    rw [dictSet_append_of_not_mem extra _ _ hL]
    rfl
  have hdty : HDF5eventLogger.event2dtype
      (extra ++ [("LinkID", Value.str "0")]) = C1cdt extra := by
    rw [event2dtype_append]
    rfl
  have haitem : HDF5hierarchicalDatasets.append_item (C1stA cn extra)
      (canonEvent vT vD vS cn extra) [cn] =
      (.ok [], C1state vT vD vS cn extra) := by
    simp only [HDF5hierarchicalDatasets.append_item,
      show (C1stA cn extra).parent_name = "Events" from rfl,
      HDF5linkedDatasets.append_linked_data]
    rw [show ([cn].filter (fun c => c ≠ "Events")) = [cn] from by
      simp [hcn]]
    rw [C1s_newlink cn extra hcn hL]
    exact C1s_setlinked vT vD vS cn extra hcn hnd hT hD hS hTy hL
  simp only [HDF5eventLogger.append_event, HDF5eventLogger.TYPE_NAME,
    HDF5eventLogger.LINK_NAME]
  rw [hgetty]
  dsimp only
  rw [show HDF5eventLogger.initLogger.child_datasets.contains cn = false
    from rfl]
  simp only [Bool.false_eq_true, if_false]
  rw [hstrip, dictGet_eq_none_of_not_mem extra _ hL]
  simp only [Option.isSome_none, Bool.false_eq_true, if_false]
  rw [show HDF5eventLogger.initLogger.nextUUID = 0 from rfl, hset,
    show ({ HDF5eventLogger.initLogger with nextUUID := 0 + 1 } :
      LogSt) = C1st1 from rfl]
  rw [hdty,
    show HDF5eventLogger.create_event_dataset (C1cdt extra) =
      (⟨C1cdt extra, []⟩ : Dset) from rfl]
  rw [C1s_addchild cn extra hcn]
  dsimp only
  exact haitem

-- Reading the stored row back ----------------------------------------------

theorem C1s_getindex_p2 (vT vD vS : Value) (cn : String) :
    HDF5referenceDataset.get_index (C1prs2 vT vD vS cn) 1 =
      (.ok 0, C1prs2 vT vD vS cn) := rfl

theorem C1s_find_index_p2 (vT vD vS : Value) (cn : String) :
    HDF5referenceDataset.find_index (C1prs2 vT vD vS cn) 1 =
      .ok (some 0) := rfl

theorem C1s_find_index_c2 (extra : Dict)
    (hL : "LinkID" ∉ dictKeys extra) :
    HDF5referenceDataset.find_index (C1crs2 extra) 1 = .ok (some 0) := by
  have hcol := C1s_refcol_child extra hL
    (extra.map (fun p => item_to_np p.2))
    (by simp [HDF5eventLogger.event2dtype]) (Value.str "1")
  simp only [HDF5referenceDataset.find_index,
    HDF5referenceDataset.matchIndices, C1crs2]
  rw [hcol]
  rfl

theorem C1s_getindex_c2 (extra : Dict)
    (hL : "LinkID" ∉ dictKeys extra) :
    HDF5referenceDataset.get_index (C1crs2 extra) 1 =
      (.ok 0, C1crs2 extra) := by
  have hgi := C1s_getindex_child extra hL
    (extra.map (fun p => item_to_np p.2))
    (by simp [HDF5eventLogger.event2dtype])
  simpa [C1crs2] using hgi

theorem C1s_lrgiP (vT vD vS : Value) (cn : String) (extra : Dict)
    (hcn : cn ≠ "Events") :
    HDF5linkedDatasets.get_index (C1state vT vD vS cn extra) "Events" 1 =
      (.ok 0, C1state vT vD vS cn extra) := by
  simp [HDF5linkedDatasets.get_index, onRef, assocGet,
    HDF5referenceDataset.get_references_uid, C1state, hcn,
    C1s_getindex_p2 vT vD vS cn]

theorem C1s_lrgiC (vT vD vS : Value) (cn : String) (extra : Dict)
    (hcn : cn ≠ "Events") (hL : "LinkID" ∉ dictKeys extra) :
    HDF5linkedDatasets.get_index (C1state vT vD vS cn extra) cn 1 =
      (.ok 0, C1state vT vD vS cn extra) := by
  have hne : ("Events" : String) ≠ cn := fun h => hcn h.symm
  simp [HDF5linkedDatasets.get_index, onRef, assocGet,
    HDF5referenceDataset.get_references_uid, C1state, hne, hcn,
    C1s_getindex_c2 extra hL]

theorem C1s_indices_all (vT vD vS : Value) (cn : String) (extra : Dict)
    (hcn : cn ≠ "Events") (hL : "LinkID" ∉ dictKeys extra) :
    HDF5linkedDatasets.get_indices_all (C1state vT vD vS cn extra)
        ["Events", cn] 1 [] =
      (.ok [("Events", 0), (cn, 0)], C1state vT vD vS cn extra) := by
  have hne : ("Events" : String) ≠ cn := fun h => hcn h.symm
  have hlinks : (C1state vT vD vS cn extra).links =
      [("Events", C1prs2 vT vD vS cn), (cn, C1crs2 extra)] := rfl
  simp [HDF5linkedDatasets.get_indices_all, assocGet, hlinks, hne, hcn,
    C1s_find_index_p2 vT vD vS cn, C1s_find_index_c2 extra hL,
    C1s_lrgiP vT vD vS cn extra hcn, C1s_lrgiC vT vD vS cn extra hcn hL]

theorem C1s_getitem_p2 (vT vD vS : Value) (cn : String) :
    HDF5referenceDataset.get_item (C1prs2 vT vD vS cn) (.uid 1) =
      (.ok [("Time", item_to_np vT), ("DeltaTime", item_to_np vD),
        ("StartTime", item_to_np vS), ("Type", Value.str cn),
        ("LinkID", Value.str "1")], C1prs2 vT vD vS cn) := rfl

theorem C1s_np_read_child (extra : Dict) :
    np_to_dict (C1cdt extra)
        (extra.map (fun p => item_to_np p.2) ++ [Value.str "1"]) =
      extra.map (fun p => (p.1, item_to_np p.2))
        ++ [("LinkID", Value.str "1")] := by
  unfold C1cdt
  rw [np_to_dict_append _ _ _ _ (by simp [HDF5eventLogger.event2dtype]),
    np_to_dict_event2dtype]
  rfl

theorem C1s_getitem_c2 (extra : Dict) :
    HDF5referenceDataset.get_item (C1crs2 extra) (.idx 0) =
      (.ok (extra.map (fun p => (p.1, item_to_np p.2))
        ++ [("LinkID", Value.str "1")]), C1crs2 extra) := by
  simp only [HDF5referenceDataset.get_item, C1crs2, dsetGetRow,
    List.get?_cons_zero]
  rw [C1s_np_read_child extra]

theorem C1s_linkeddata (vT vD vS : Value) (cn : String) (extra : Dict)
    (hcn : cn ≠ "Events") (hL : "LinkID" ∉ dictKeys extra) :
    HDF5linkedDatasets.get_linked_data (C1state vT vD vS cn extra)
        "Events" (.str "1") (some [cn]) =
      (.ok [("Events",
          [("Time", item_to_np vT), ("DeltaTime", item_to_np vD),
            ("StartTime", item_to_np vS), ("Type", Value.str cn),
            ("LinkID", Value.str "1")]),
        (cn, extra.map (fun p => (p.1, item_to_np p.2))
          ++ [("LinkID", Value.str "1")])],
        C1state vT vD vS cn extra) := by
  have hne : ("Events" : String) ≠ cn := fun h => hcn h.symm
  have hlinks : (C1state vT vD vS cn extra).links =
      [("Events", C1prs2 vT vD vS cn), (cn, C1crs2 extra)] := rfl
  have hstid : (⟨[("Events", C1prs2 vT vD vS cn), (cn, C1crs2 extra)],
      "Events", "Type", "LinkID", [cn], 2⟩ : LogSt) =
      C1state vT vD vS cn extra := rfl
  simp [HDF5linkedDatasets.get_linked_data,
    show parseUUID "1" = some 1 from rfl,
    HDF5linkedDatasets.get_indices, hlinks, hstid,
    show (C1state vT vD vS cn extra).parent_name = "Events" from rfl,
    show (C1state vT vD vS cn extra).child_name_field = "Type" from rfl,
    show (C1state vT vD vS cn extra).parent_link_name = "LinkID" from rfl,
    show (C1state vT vD vS cn extra).child_datasets = [cn] from rfl,
    show (C1state vT vD vS cn extra).nextUUID = 2 from rfl,
    C1s_indices_all vT vD vS cn extra hcn hL, assocGet, hne, hcn, onRef,
    C1s_getitem_p2 vT vD vS cn,
    HDF5linkedDatasets.get_linked_data_children,
    C1s_getitem_c2 extra]

theorem C1s_keysN (extra : Dict) :
    dictKeys (extra.map (fun p => (p.1, item_to_np p.2))) =
      dictKeys extra := by
  unfold dictKeys
  rw [List.map_map]
  rfl

/-- Merging a child record over a parent record with disjoint payload keys
appends the payload; the shared `LinkID` column (same value on both sides)
is overwritten in place with its own value. -/
theorem C1s_merge_named (pd extraN : Dict)
    (hdisj2 : ∀ k ∈ dictKeys extraN, k ∉ dictKeys pd)
    (hnd2 : (dictKeys extraN).Nodup)
    (hmem : "LinkID" ∈ dictKeys pd)
    (hval : ∀ p ∈ pd ++ extraN, p.1 = "LinkID" → p.2 = Value.str "1") :
    merge_dict pd (extraN ++ [("LinkID", Value.str "1")]) = pd ++ extraN := by
  rw [merge_dict_append_right, merge_dict_disjoint extraN pd hdisj2 hnd2]
  rw [show merge_dict (pd ++ extraN) [("LinkID", Value.str "1")] =
    dictSet (pd ++ extraN) "LinkID" (Value.str "1") from rfl]
  refine dictSet_eq_self _ _ _ ?_ hval
  unfold dictKeys at hmem ⊢
  rw [List.map_append]
  exact List.mem_append_left _ hmem

theorem C1s_getdata (vT vD vS : Value) (cn : String) (extra : Dict)
    (hcn : cn ≠ "Events") (hnd : (dictKeys extra).Nodup)
    (hT : "Time" ∉ dictKeys extra) (hD : "DeltaTime" ∉ dictKeys extra)
    (hS : "StartTime" ∉ dictKeys extra) (hTy : "Type" ∉ dictKeys extra)
    (hL : "LinkID" ∉ dictKeys extra) :
    HDF5hierarchicalDatasets.get_data (C1state vT vD vS cn extra)
        (.str "1") cn false =
      (.ok ((canonEvent vT vD vS cn extra).map
        (fun p => (p.1, item_to_np p.2))), C1state vT vD vS cn extra) := by
  have hne : ("Events" : String) ≠ cn := fun h => hcn h.symm
  have hlinks : (C1state vT vD vS cn extra).links =
      [("Events", C1prs2 vT vD vS cn), (cn, C1crs2 extra)] := rfl
  have hkN := C1s_keysN extra
  have hdisj2 : ∀ k ∈ dictKeys (extra.map (fun p => (p.1, item_to_np p.2))),
      k ∉ dictKeys ([("Time", item_to_np vT), ("DeltaTime", item_to_np vD),
        ("StartTime", item_to_np vS), ("Type", Value.str cn),
        ("LinkID", Value.str "1")] : Dict) := by
    intro k hk hmem
    rw [hkN] at hk
    simp only [dictKeys, List.map_cons, List.map_nil, List.mem_cons,
      List.not_mem_nil, or_false] at hmem
    rcases hmem with rfl | rfl | rfl | rfl | rfl
    · exact hT hk
    · exact hD hk
    · exact hS hk
    · exact hTy hk
    · exact hL hk
  have hnd2 : (dictKeys (extra.map
      (fun p => (p.1, item_to_np p.2)))).Nodup := by
    rw [hkN]
    exact hnd
  have hval : ∀ p ∈ ([("Time", item_to_np vT), ("DeltaTime", item_to_np vD),
      ("StartTime", item_to_np vS), ("Type", Value.str cn),
      ("LinkID", Value.str "1")] : Dict)
        ++ extra.map (fun p => (p.1, item_to_np p.2)),
      p.1 = "LinkID" → p.2 = Value.str "1" := by
    intro p hp hpk
    rcases List.mem_append.mp hp with h | h
    · simp only [List.mem_cons, List.not_mem_nil, or_false] at h
      rcases h with rfl | rfl | rfl | rfl | rfl
      · simp at hpk
      · simp at hpk
      · simp at hpk
      · simp at hpk
      · rfl
    · obtain ⟨q, hq, rfl⟩ := List.mem_map.mp h
      have hq1 : q.1 ∈ dictKeys extra := List.mem_map_of_mem Prod.fst hq
      refine absurd hpk (fun he => hL ?_)
      have he' : q.1 = "LinkID" := he
      exact he' ▸ hq1
  have hmerge := C1s_merge_named
    [("Time", item_to_np vT), ("DeltaTime", item_to_np vD),
      ("StartTime", item_to_np vS), ("Type", Value.str cn),
      ("LinkID", Value.str "1")]
    (extra.map (fun p => (p.1, item_to_np p.2))) hdisj2 hnd2
    (by simp [dictKeys]) hval
  have hdropN : dictDrop (extra.map (fun p => (p.1, item_to_np p.2)))
      "LinkID" = extra.map (fun p => (p.1, item_to_np p.2)) :=
    dictDrop_eq_self _ _ (by rw [hkN]; exact hL)
  simp [HDF5hierarchicalDatasets.get_data, hlinks, assocGet, hne, hcn,
    show (C1state vT vD vS cn extra).parent_name = "Events" from rfl,
    show (C1prs2 vT vD vS cn).reference_field = "LinkID" from rfl,
    show (C1crs2 extra).reference_field = "LinkID" from rfl,
    C1s_linkeddata vT vD vS cn extra hcn hL, hmerge, dictDrop_append,
    hdropN, dictDrop_cons]
  simp [canonEvent, item_to_np]

theorem C1s_read (vT vD vS : Value) (cn : String) (extra : Dict)
    (hcn : cn ≠ "Events") (hnd : (dictKeys extra).Nodup)
    (hT : "Time" ∉ dictKeys extra) (hD : "DeltaTime" ∉ dictKeys extra)
    (hS : "StartTime" ∉ dictKeys extra) (hTy : "Type" ∉ dictKeys extra)
    (hL : "LinkID" ∉ dictKeys extra) :
    HDF5eventLogger.get_item (C1state vT vD vS cn extra) 0 =
      (.ok ((canonEvent vT vD vS cn extra).map
        (fun p => (p.1, item_to_np p.2))), C1state vT vD vS cn extra) := by
  have hlinks : (C1state vT vD vS cn extra).links =
      [("Events", C1prs2 vT vD vS cn), (cn, C1crs2 extra)] := rfl
  simp [HDF5eventLogger.get_item,
    HDF5hierarchicalDatasets.get_items_single, hlinks, assocGet,
    show (C1state vT vD vS cn extra).parent_name = "Events" from rfl,
    show (C1state vT vD vS cn extra).child_name_field = "Type" from rfl,
    show (C1state vT vD vS cn extra).parent_link_name = "LinkID" from rfl,
    show dsetGetRow (C1prs2 vT vD vS cn).dset 0 =
      .ok [item_to_np vT, item_to_np vD, item_to_np vS, Value.str cn,
        Value.str "1"] from rfl,
    show HDF5hierarchicalDatasets.rowFieldStr (C1prs2 vT vD vS cn).dset.descr
      [item_to_np vT, item_to_np vD, item_to_np vS, Value.str cn,
        Value.str "1"] "Type" = .ok cn from rfl,
    show HDF5hierarchicalDatasets.rowFieldStr (C1prs2 vT vD vS cn).dset.descr
      [item_to_np vT, item_to_np vD, item_to_np vS, Value.str cn,
        Value.str "1"] "LinkID" = .ok "1" from rfl,
    C1s_getdata vT vD vS cn extra hcn hnd hT hD hS hTy hL]

/-- C1 (amended).  For EVERY event record in canonical form — arbitrary
Time, DeltaTime and StartTime values, an arbitrary Type string `cn` naming
the child stream, and an arbitrary payload dict `extra` whose keys (unique,
as Python dict keys are) avoid the four canonical fields and the internal
`LinkID` — appending the record to a fresh log succeeds, and `get_item` at
the stored row returns exactly the record with every value normalized by
`item_to_np` (datetimes become their timestamp floats, UUIDs their
strings): the Type field is retained and the internal generated `LinkID` is
stripped, so the round trip is the identity only up to this storage
normalization, as the counterexample shows. -/
theorem C1_roundtrip_normalized (vT vD vS : Value) (cn : String)
    (extra : Dict) (hcn : cn ≠ "Events")
    (hnd : (dictKeys extra).Nodup)
    (hdisj : ∀ k ∈ dictKeys extra,
      k ∉ HDF5eventLogger.EVENT_FIELDS ∧ k ≠ HDF5eventLogger.LINK_NAME) :
    (HDF5eventLogger.append_event HDF5eventLogger.initLogger
        (canonEvent vT vD vS cn extra)).1 = .ok [] ∧
    (HDF5eventLogger.get_item
        (HDF5eventLogger.append_event HDF5eventLogger.initLogger
          (canonEvent vT vD vS cn extra)).2 0).1 =
      .ok ((canonEvent vT vD vS cn extra).map
        (fun p => (p.1, item_to_np p.2))) := by
  have hT : "Time" ∉ dictKeys extra :=
    fun hm => (hdisj _ hm).1 (by decide)
  have hD : "DeltaTime" ∉ dictKeys extra :=
    fun hm => (hdisj _ hm).1 (by decide)
  have hS : "StartTime" ∉ dictKeys extra :=
    fun hm => (hdisj _ hm).1 (by decide)
  have hTy : "Type" ∉ dictKeys extra :=
    fun hm => (hdisj _ hm).1 (by decide)
  have hL : "LinkID" ∉ dictKeys extra :=
    fun hm => (hdisj _ hm).2 rfl
  have ha := C1s_append vT vD vS cn extra hcn hnd hT hD hS hTy hL
  have hr := C1s_read vT vD vS cn extra hcn hnd hT hD hS hTy hL
  refine ⟨?_, ?_⟩
  · rw [ha]
  · rw [ha]
    dsimp only
    rw [hr]

/-- Witness for C1 (amended): a concrete record with a datetime Time, a
float DeltaTime, a datetime StartTime, Type "Press" and one payload field,
pushed through the amended round-trip theorem. -/
theorem C1_roundtrip_normalized_witness :
    (HDF5eventLogger.append_event HDF5eventLogger.initLogger
        (canonEvent (Value.dt 7) (Value.float 2) (Value.dt 5) "Press"
          [("Count", Value.int 3)])).1 = .ok [] ∧
    (HDF5eventLogger.get_item
        (HDF5eventLogger.append_event HDF5eventLogger.initLogger
          (canonEvent (Value.dt 7) (Value.float 2) (Value.dt 5) "Press"
            [("Count", Value.int 3)])).2 0).1 =
      .ok ((canonEvent (Value.dt 7) (Value.float 2) (Value.dt 5) "Press"
        [("Count", Value.int 3)]).map (fun p => (p.1, item_to_np p.2))) :=
  C1_roundtrip_normalized (Value.dt 7) (Value.float 2) (Value.dt 5)
    "Press" [("Count", Value.int 3)] (by decide) (by decide) (by decide)

/-- The three-record scenario of C8 (timestamps 1, 2, 3 filled in, since
`append` timestamps every record before storage). -/
def recLever1 : Dict :=
  [("Time", .float 1), ("DeltaTime", .float 0), ("StartTime", .float 1),
   ("Type", .str "Lever"), ("Value", .int 1)]

def recLever2 : Dict :=
  [("Time", .float 2), ("DeltaTime", .float 1), ("StartTime", .float 1),
   ("Type", .str "Lever"), ("Value", .int 2)]

def recTone : Dict :=
  [("Time", .float 3), ("DeltaTime", .float 2), ("StartTime", .float 1),
   ("Type", .str "Tone"), ("Freq", .int 440)]

/-- The logger after appending the two Lever records and the Tone record,
in that order. -/
def leverToneState : LogSt :=
  (HDF5eventLogger.append_event
    ((HDF5eventLogger.append_event
      ((HDF5eventLogger.append_event HDF5eventLogger.initLogger
        recLever1).2) recLever2).2) recTone).2

/-- C8.  After appending `{Type: Lever, Value: 1}`, `{Type: Lever,
Value: 2}`, `{Type: Tone, Freq: 440}`: the parent array has exactly 3 rows
whose Type column reads `["Lever", "Lever", "Tone"]`; `get_dataset
"Lever"` returns exactly the 2 merged Lever records with Values `[1, 2]`
in append order; `get_dataset "Tone"` returns exactly 1 record with Freq
440; and requesting the parent name itself (`"Events"`) returns all 3
records, since `get_dataset` then keeps every row whose Type differs from
the parent's own name. -/
theorem C8_append_scenario :
    ((assocGet leverToneState.links "Events").map (fun rs =>
        rs.dset.rows.map (fun r => rowField rs.dset.descr r "Type"))) =
      some [some (.str "Lever"), some (.str "Lever"), some (.str "Tone")] ∧
    ((HDF5hierarchicalDatasets.get_dataset leverToneState "Lever"
        false).1.map (fun l => l.map (fun d => dictGet d "Value"))) =
      .ok [some (.int 1), some (.int 2)] ∧
    ((HDF5hierarchicalDatasets.get_dataset leverToneState "Tone"
        false).1.map (fun l => l.map (fun d => dictGet d "Freq"))) =
      .ok [some (.int 440)] ∧
    ((HDF5hierarchicalDatasets.get_dataset leverToneState "Events"
        false).1.map List.length) = .ok 3 := by
  decide

/-- C6.  Every accessor of the container (attribute and dataset gets and
sets) and of the dataset proxy (element read and write, and the proxy's
open/close bracket itself) leaves the container's open/closed flag exactly
as it found it: an already-open handle is never closed, and a closed
container is closed again on exit. -/
theorem C6_scoped_access_preserves_open_state :
    (∀ (c : HDF5container.Container) (item : String),
      (HDF5container.get_file_attribute c item).2.isOpen = c.isOpen) ∧
    (∀ (wok : String → Value → Bool) (c : HDF5container.Container)
        (key : String) (value : Value),
      (HDF5container.set_file_attribute wok c key value).1.isOpen =
        c.isOpen) ∧
    (∀ (wok : String → Value → Bool) (c : HDF5container.Container)
        (items : List (String × Value)),
      (HDF5container.add_file_attributes wok c items).1.isOpen = c.isOpen) ∧
    (∀ (c : HDF5container.Container) (item : String),
      (HDF5container.get_dataset c item).2.isOpen = c.isOpen) ∧
    (∀ (c : HDF5container.Container) (name : String) (data : Dset),
      (HDF5container.set_dataset c name data).isOpen = c.isOpen) ∧
    (∀ (c : HDF5container.Container) (p : HDF5dataset.Proxy) (i : Nat),
      (HDF5dataset.proxyGetItem c p i).2.1.isOpen = c.isOpen) ∧
    (∀ (c : HDF5container.Container) (p : HDF5dataset.Proxy) (i : Nat)
        (row : Row),
      (HDF5dataset.proxySetItem c p i row).2.1.isOpen = c.isOpen) ∧
    (∀ (c : HDF5container.Container) (p : HDF5dataset.Proxy),
      (HDF5dataset.proxyClose (HDF5dataset.proxyOpen c p).1
        (HDF5dataset.proxyOpen c p).2).isOpen = c.isOpen) :=
  ⟨HDF5container.get_file_attribute_isOpen,
   HDF5container.set_file_attribute_isOpen,
   HDF5container.add_file_attributes_isOpen,
   HDF5container.get_dataset_isOpen,
   HDF5container.set_dataset_isOpen,
   HDF5dataset.proxyGetItem_isOpen,
   HDF5dataset.proxySetItem_isOpen,
   HDF5dataset.proxy_with_block_isOpen⟩

/-- C7.  When the underlying file write of an attribute is rejected
(`wok key value = false`): `set_file_attribute` emits a warning, leaves
the file's attributes untouched, and leaves the in-memory attribute cache
exactly as it stood after the scoped open (in particular, for an already
open container the whole cache is unchanged); `add_file_attributes`
likewise warns and leaves the failing key's cached value unchanged while
processing the other items.  Both functions are total — the Python
`except` clause catches every write failure, so no exception reaches the
caller. -/
theorem C7_attribute_write_failure :
    (∀ (wok : String → Value → Bool) (c : HDF5container.Container)
        (key : String) (value : Value), wok key value = false →
      (HDF5container.set_file_attribute wok c key value).2 ≠ [] ∧
      (HDF5container.set_file_attribute wok c key value).1.attrCache =
        (HDF5container.containerOpen c).attrCache ∧
      (c.isOpen = true →
        (HDF5container.set_file_attribute wok c key value).1.attrCache =
          c.attrCache) ∧
      (HDF5container.set_file_attribute wok c key value).1.fattrs =
        c.fattrs) ∧
    (∀ (wok : String → Value → Bool) (c : HDF5container.Container)
        (items : List (String × Value)) (key : String) (value : Value),
      (key, value) ∈ items → wok key value = false →
      (items.map Prod.fst).Nodup →
      (HDF5container.add_file_attributes wok c items).2 ≠ [] ∧
      assocGet
          (HDF5container.add_file_attributes wok c items).1.attrCache key =
        assocGet (HDF5container.containerOpen c).attrCache key) := by
  constructor
  · intro wok c key value h
    obtain ⟨hws, hcache, hfa⟩ :=
      HDF5container.set_file_attribute_fail wok c key value h
    refine ⟨by rw [hws]; simp, hcache, ?_, hfa⟩
    intro ho
    rw [hcache, HDF5container.containerOpen_of_isOpen c ho]
  · intro wok c items key value hmem hfail hnd
    constructor
    · exact HDF5container.add_file_attributes_go_warn_of_fail wok items key
        value hmem hfail _ _
    · have h1 := HDF5container.restore_attrCache c.isOpen
        (HDF5container.add_file_attributes_go wok
          (HDF5container.containerOpen c) items
          (if items.any (fun p => c.dsetNamesC.contains p.1) then
            ["Attribute name already exists"] else [])).1
      have h2 := HDF5container.add_file_attributes_go_cache_fail wok items
        key value hmem hfail hnd (HDF5container.containerOpen c)
        (if items.any (fun p => c.dsetNamesC.contains p.1) then
          ["Attribute name already exists"] else [])
      calc assocGet
            (HDF5container.add_file_attributes wok c items).1.attrCache key
          = assocGet (HDF5container.add_file_attributes_go wok
              (HDF5container.containerOpen c) items
              (if items.any (fun p => c.dsetNamesC.contains p.1) then
                ["Attribute name already exists"] else [])).1.attrCache
              key := by rw [show (HDF5container.add_file_attributes wok c
                items).1.attrCache = _ from h1]
        _ = assocGet (HDF5container.containerOpen c).attrCache key := h2

/-- Witness for C7 at concrete inputs: a write policy rejecting
everything, an open one-attribute container, and a two-item
`add_file_attributes` batch whose first item fails. -/
theorem C7_attribute_write_failure_witness :
    ((HDF5container.set_file_attribute (fun _ _ => false)
        { isOpen := true, isUpdating := true, fattrs := [("A", .int 1)],
          fdsets := [], fileAttrNames := ["A"], dsetNamesC := [],
          attrCache := [("A", some (.int 1))], dsetCache := [] }
        "A" (.int 2)).2 ≠ [] ∧
      (HDF5container.set_file_attribute (fun _ _ => false)
        { isOpen := true, isUpdating := true, fattrs := [("A", .int 1)],
          fdsets := [], fileAttrNames := ["A"], dsetNamesC := [],
          attrCache := [("A", some (.int 1))], dsetCache := [] }
        "A" (.int 2)).1.attrCache =
        (HDF5container.containerOpen
          { isOpen := true, isUpdating := true, fattrs := [("A", .int 1)],
            fdsets := [], fileAttrNames := ["A"], dsetNamesC := [],
            attrCache := [("A", some (.int 1))], dsetCache := [] }).attrCache ∧
      (({ isOpen := true, isUpdating := true, fattrs := [("A", .int 1)],
          fdsets := [], fileAttrNames := ["A"], dsetNamesC := [],
          attrCache := [("A", some (.int 1))], dsetCache := [] } :
            HDF5container.Container).isOpen = true →
        (HDF5container.set_file_attribute (fun _ _ => false)
          { isOpen := true, isUpdating := true, fattrs := [("A", .int 1)],
            fdsets := [], fileAttrNames := ["A"], dsetNamesC := [],
            attrCache := [("A", some (.int 1))], dsetCache := [] }
          "A" (.int 2)).1.attrCache = [("A", some (.int 1))]) ∧
      (HDF5container.set_file_attribute (fun _ _ => false)
        { isOpen := true, isUpdating := true, fattrs := [("A", .int 1)],
          fdsets := [], fileAttrNames := ["A"], dsetNamesC := [],
          attrCache := [("A", some (.int 1))], dsetCache := [] }
        "A" (.int 2)).1.fattrs = [("A", .int 1)]) ∧
    ((HDF5container.add_file_attributes (fun k _ => k ≠ "B")
        { isOpen := true, isUpdating := true, fattrs := [],
          fdsets := [], fileAttrNames := [], dsetNamesC := [],
          attrCache := [], dsetCache := [] }
        [("B", .int 1), ("C", .int 2)]).2 ≠ [] ∧
      assocGet (HDF5container.add_file_attributes (fun k _ => k ≠ "B")
        { isOpen := true, isUpdating := true, fattrs := [],
          fdsets := [], fileAttrNames := [], dsetNamesC := [],
          attrCache := [], dsetCache := [] }
        [("B", .int 1), ("C", .int 2)]).1.attrCache "B" =
        assocGet (HDF5container.containerOpen
          { isOpen := true, isUpdating := true, fattrs := [],
            fdsets := [], fileAttrNames := [], dsetNamesC := [],
            attrCache := [], dsetCache := [] }).attrCache "B") :=
  ⟨C7_attribute_write_failure.1 (fun _ _ => false)
    { isOpen := true, isUpdating := true, fattrs := [("A", .int 1)],
      fdsets := [], fileAttrNames := ["A"], dsetNamesC := [],
      attrCache := [("A", some (.int 1))], dsetCache := [] }
    "A" (.int 2) (by decide),
   (C7_attribute_write_failure.2 (fun k _ => k ≠ "B")
    { isOpen := true, isUpdating := true, fattrs := [],
      fdsets := [], fileAttrNames := [], dsetNamesC := [],
      attrCache := [], dsetCache := [] }
    [("B", .int 1), ("C", .int 2)] "B" (.int 1) (by decide) (by decide)
    (by decide))⟩

/-- C4.  On a sorted time column, `find_event(t, bisect_="bisect")` returns
the row closest to `t` among the rows neighbouring the binary-search
insertion point, resolving distance ties toward the earlier row (numpy's
`argmin` takes the first minimum). -/
theorem C4_find_event_bisect_closest (times : List ℚ) (t : ℚ)
    (hs : List.Sorted (· ≤ ·) times) (hne : times ≠ []) :
    ∃ r : ℕ,
      HDF5eventLogger.find_event_index times t "bisect" = (r : ℤ) ∧
      r ∈ HDF5eventLogger.neighborIndices times t ∧
      ∀ j ∈ HDF5eventLogger.neighborIndices times t,
        |times.getD r 0 - t| < |times.getD j 0 - t| ∨
        (|times.getD r 0 - t| = |times.getD j 0 - t| ∧ r ≤ j) := by
  have hn0 : 0 < times.length := List.length_pos.mpr hne
  have hipn : HDF5eventLogger.bisect_left times t ≤ times.length :=
    HDF5eventLogger.bisect_left_le_length times t
  by_cases h1 : HDF5eventLogger.bisect_left times t ≥ times.length
  · -- insertion point beyond the end: the last row is the only neighbour
    have hipeq : HDF5eventLogger.bisect_left times t = times.length :=
      le_antisymm hipn h1
    have hnb : HDF5eventLogger.neighborIndices times t =
        [times.length - 1] := by
      simp only [HDF5eventLogger.neighborIndices]
      rw [if_pos (by omega), if_neg (by omega)]
      rw [hipeq]
      rfl
    refine ⟨times.length - 1, ?_, ?_, ?_⟩
    · simp only [HDF5eventLogger.find_event_index]
      rw [if_pos h1, hipeq]
      omega
    · rw [hnb]; exact List.mem_singleton.mpr rfl
    · intro j hj
      rw [hnb] at hj
      rw [List.mem_singleton.mp hj]
      exact Or.inr ⟨rfl, le_refl _⟩
  · push_neg at h1
    by_cases h2 : times.getD (HDF5eventLogger.bisect_left times t) 0 = t
    · -- exact match at the insertion point
      refine ⟨HDF5eventLogger.bisect_left times t, ?_, ?_, ?_⟩
      · simp only [HDF5eventLogger.find_event_index]
        rw [if_neg (not_le.mpr h1), if_pos h2]
      · simp only [HDF5eventLogger.neighborIndices]
        by_cases h3 : 0 < HDF5eventLogger.bisect_left times t
        · rw [if_pos h3, if_pos h1]; simp
        · rw [if_neg h3, if_pos h1]; simp
      · intro j hj
        simp only [HDF5eventLogger.neighborIndices] at hj
        by_cases h3 : 0 < HDF5eventLogger.bisect_left times t
        · rw [if_pos h3, if_pos h1] at hj
          rcases List.mem_cons.mp hj with hj1 | hj1
          · subst hj1
            left
            have hlt1 : times.getD (HDF5eventLogger.bisect_left times t - 1)
                0 < t :=
              HDF5eventLogger.getD_lt_of_lt_bisect_left times t hs _
                (by omega)
            rw [h2]
            simp only [sub_self, abs_zero]
            exact abs_pos.mpr (sub_ne_zero.mpr (ne_of_lt hlt1))
          · rw [List.mem_singleton.mp hj1]
            exact Or.inr ⟨rfl, le_refl _⟩
        · rw [if_neg h3, if_pos h1] at hj
          have hj2 : j = HDF5eventLogger.bisect_left times t := by
            simpa using hj
          subst hj2
          exact Or.inr ⟨rfl, le_refl _⟩
    · -- no exact match: "bisect" mode applies the two-neighbour argmin
      by_cases h3 : 0 < HDF5eventLogger.bisect_left times t
      · have hlt1 : times.getD (HDF5eventLogger.bisect_left times t - 1) 0
            < t :=
          HDF5eventLogger.getD_lt_of_lt_bisect_left times t hs _ (by omega)
        have hle2 : t ≤ times.getD (HDF5eventLogger.bisect_left times t) 0 :=
          HDF5eventLogger.le_getD_of_bisect_left_le times t hs _
            (le_refl _) h1
        have hlt2 : t < times.getD (HDF5eventLogger.bisect_left times t) 0 :=
          lt_of_le_of_ne hle2 (fun he => h2 he.symm)
        have hnb : HDF5eventLogger.neighborIndices times t =
            [HDF5eventLogger.bisect_left times t - 1,
             HDF5eventLogger.bisect_left times t] := by
          simp only [HDF5eventLogger.neighborIndices]
          rw [if_pos h3, if_pos h1]
          rfl
        by_cases h4 : |times.getD (HDF5eventLogger.bisect_left times t - 1)
            0 - t| ≤ |times.getD (HDF5eventLogger.bisect_left times t) 0 - t|
        · refine ⟨HDF5eventLogger.bisect_left times t - 1, ?_, ?_, ?_⟩
          · simp only [HDF5eventLogger.find_event_index]
            rw [if_neg (not_le.mpr h1), if_neg h2, if_pos trivial, if_pos h3,
              if_pos h4]
            omega
          · rw [hnb]; exact List.mem_cons_self _ _
          · intro j hj
            rw [hnb] at hj
            rcases List.mem_cons.mp hj with hj1 | hj1
            · subst hj1; exact Or.inr ⟨rfl, le_refl _⟩
            · rw [List.mem_singleton.mp hj1]
              rcases lt_or_eq_of_le h4 with h5 | h5
              · exact Or.inl h5
              · exact Or.inr ⟨h5, by omega⟩
        · refine ⟨HDF5eventLogger.bisect_left times t, ?_, ?_, ?_⟩
          · simp only [HDF5eventLogger.find_event_index]
            rw [if_neg (not_le.mpr h1), if_neg h2, if_pos trivial, if_pos h3,
              if_neg h4]
          · rw [hnb]
            exact List.mem_cons_of_mem _ (List.mem_singleton.mpr rfl)
          · intro j hj
            rw [hnb] at hj
            rcases List.mem_cons.mp hj with hj1 | hj1
            · subst hj1
              exact Or.inl (not_le.mp h4)
            · rw [List.mem_singleton.mp hj1]
              exact Or.inr ⟨rfl, le_refl _⟩
      · -- insertion point 0: row 0 is the only neighbour
        have hnb : HDF5eventLogger.neighborIndices times t =
            [HDF5eventLogger.bisect_left times t] := by
          simp only [HDF5eventLogger.neighborIndices]
          rw [if_neg h3, if_pos h1]
          rfl
        refine ⟨HDF5eventLogger.bisect_left times t, ?_, ?_, ?_⟩
        · simp only [HDF5eventLogger.find_event_index]
          rw [if_neg (not_le.mpr h1), if_neg h2, if_pos trivial, if_neg h3]
        · rw [hnb]; exact List.mem_singleton.mpr rfl
        · intro j hj
          rw [hnb] at hj
          rw [List.mem_singleton.mp hj]
          exact Or.inr ⟨rfl, le_refl _⟩

/-- Witness for C4 on the sorted column `[1, 3]` at the equidistant query
time 2: the tie is resolved toward the earlier row 0. -/
theorem C4_find_event_bisect_closest_witness :
    ∃ r : ℕ,
      HDF5eventLogger.find_event_index [(1 : ℚ), 3] 2 "bisect" = (r : ℤ) ∧
      r ∈ HDF5eventLogger.neighborIndices [(1 : ℚ), 3] 2 ∧
      ∀ j ∈ HDF5eventLogger.neighborIndices [(1 : ℚ), 3] 2,
        |[(1 : ℚ), 3].getD r 0 - 2| < |[(1 : ℚ), 3].getD j 0 - 2| ∨
        (|[(1 : ℚ), 3].getD r 0 - 2| = |[(1 : ℚ), 3].getD j 0 - 2| ∧
          r ≤ j) :=
  C4_find_event_bisect_closest [(1 : ℚ), 3] 2
    (by simp [List.sorted_cons]) (by simp)

-- Helper lemmas: find_event in "right"/"left" mode --------------------------

theorem find_event_right_eq (times : List ℚ) (s : ℚ)
    (h : HDF5eventLogger.bisect_left times s < times.length) :
    HDF5eventLogger.find_event_index times s "right" =
      (HDF5eventLogger.bisect_left times s : ℤ) := by
  simp only [HDF5eventLogger.find_event_index]
  rw [if_neg (not_le.mpr h)]
  by_cases h2 : times.getD (HDF5eventLogger.bisect_left times s) 0 = s
  · rw [if_pos h2]
  · rw [if_neg h2]
    simp

theorem find_event_left_big (times : List ℚ) (e : ℚ)
    (h : times.length ≤ HDF5eventLogger.bisect_left times e) :
    HDF5eventLogger.find_event_index times e "left" =
      (HDF5eventLogger.bisect_left times e : ℤ) - 1 := by
  simp only [HDF5eventLogger.find_event_index]
  rw [if_pos h]

theorem find_event_left_exact (times : List ℚ) (e : ℚ)
    (h1 : HDF5eventLogger.bisect_left times e < times.length)
    (h2 : times.getD (HDF5eventLogger.bisect_left times e) 0 = e) :
    HDF5eventLogger.find_event_index times e "left" =
      (HDF5eventLogger.bisect_left times e : ℤ) := by
  simp only [HDF5eventLogger.find_event_index]
  rw [if_neg (not_le.mpr h1), if_pos h2]

theorem find_event_left_step (times : List ℚ) (e : ℚ)
    (h1 : HDF5eventLogger.bisect_left times e < times.length)
    (h2 : ¬ times.getD (HDF5eventLogger.bisect_left times e) 0 = e)
    (h3 : 0 < HDF5eventLogger.bisect_left times e) :
    HDF5eventLogger.find_event_index times e "left" =
      (HDF5eventLogger.bisect_left times e : ℤ) - 1 := by
  simp only [HDF5eventLogger.find_event_index]
  rw [if_neg (not_le.mpr h1), if_neg h2]
  simp [h3]

theorem find_event_left_zero (times : List ℚ) (e : ℚ)
    (h1 : HDF5eventLogger.bisect_left times e < times.length)
    (h2 : ¬ times.getD (HDF5eventLogger.bisect_left times e) 0 = e)
    (h3 : ¬ 0 < HDF5eventLogger.bisect_left times e) :
    HDF5eventLogger.find_event_index times e "left" =
      (HDF5eventLogger.bisect_left times e : ℤ) := by
  simp only [HDF5eventLogger.find_event_index]
  rw [if_neg (not_le.mpr h1), if_neg h2]
  simp [h3]

/-- C5 counterexample.  With the sorted Time column `[1, 2]` and the bound
`[5, 6]` lying beyond every stored time, `find_event_range` returns the
range `(1, 1)` — i.e. `range(1, 2)`, containing row 1 — although row 1's
Time `2` does not lie inside `[5, 6]`, so the claimed containment fails. -/
theorem C5_counterexample :
    HDF5eventLogger.find_event_range [(1 : ℚ), 2] 5 6 = (1, 1) ∧
      ¬ ((5 : ℚ) ≤ [(1 : ℚ), 2].getD 1 0 ∧
        [(1 : ℚ), 2].getD 1 0 ≤ 6) := by
  decide

/-- C5 (amended).  On a strictly sorted time column, when at least one row
lies inside `[start, end]`, the range returned by
`find_event_range(start, end)` (computed from `find_event(start, "right")`
and `find_event(end, "left")`) contains exactly the rows whose Time lies in
`[start, end]`: every row in the range is within the bound and no row
outside the range is.  Without such a row (or with duplicate times at the
`end` bound, which strict sortedness excludes) the returned range can
contain an out-of-bound row, as the counterexample shows. -/
theorem C5_find_event_range_exact (times : List ℚ) (s e : ℚ)
    (hs : List.Sorted (· < ·) times)
    (hex : ∃ i, i < times.length ∧ s ≤ times.getD i 0 ∧
      times.getD i 0 ≤ e) :
    ∃ f l : ℕ,
      HDF5eventLogger.find_event_range times s e = ((f : ℤ), (l : ℤ)) ∧
      ∀ i, i < times.length →
        ((f ≤ i ∧ i ≤ l) ↔ (s ≤ times.getD i 0 ∧ times.getD i 0 ≤ e)) := by
  have hsle : List.Sorted (· ≤ ·) times := hs.imp le_of_lt
  obtain ⟨i0, hi0n, hi0s, hi0e⟩ := hex
  have hipsn : HDF5eventLogger.bisect_left times s ≤ i0 := by
    by_contra hlt
    push_neg at hlt
    exact absurd hi0s (not_le.mpr
      (HDF5eventLogger.getD_lt_of_lt_bisect_left times s hsle i0 hlt))
  have hips_lt : HDF5eventLogger.bisect_left times s < times.length :=
    lt_of_le_of_lt hipsn hi0n
  have hf : ∀ i, i < times.length →
      (HDF5eventLogger.bisect_left times s ≤ i ↔ s ≤ times.getD i 0) := by
    intro i hi
    constructor
    · intro h
      exact HDF5eventLogger.le_getD_of_bisect_left_le times s hsle i h hi
    · intro h
      by_contra hlt
      push_neg at hlt
      exact absurd h (not_le.mpr
        (HDF5eventLogger.getD_lt_of_lt_bisect_left times s hsle i hlt))
  have hfr := find_event_right_eq times s hips_lt
  by_cases hA : times.length ≤ HDF5eventLogger.bisect_left times e
  · have hbe : HDF5eventLogger.bisect_left times e = times.length :=
      le_antisymm (HDF5eventLogger.bisect_left_le_length times e) hA
    refine ⟨HDF5eventLogger.bisect_left times s, times.length - 1, ?_, ?_⟩
    · simp only [HDF5eventLogger.find_event_range]
      rw [hfr, find_event_left_big times e hA, Prod.mk.injEq]
      exact ⟨rfl, by omega⟩
    · intro i hi
      refine and_congr (hf i hi) ?_
      constructor
      · intro _
        exact le_of_lt (HDF5eventLogger.getD_lt_of_lt_bisect_left times e
          hsle i (by omega))
      · intro _
        omega
  · push_neg at hA
    by_cases hB : times.getD (HDF5eventLogger.bisect_left times e) 0 = e
    · refine ⟨HDF5eventLogger.bisect_left times s,
        HDF5eventLogger.bisect_left times e, ?_, ?_⟩
      · simp only [HDF5eventLogger.find_event_range]
        rw [hfr, find_event_left_exact times e hA hB]
      · intro i hi
        refine and_congr (hf i hi) ?_
        constructor
        · intro h
          rcases Nat.lt_or_ge i (HDF5eventLogger.bisect_left times e)
            with h5 | h5
          · exact le_of_lt (HDF5eventLogger.getD_lt_of_lt_bisect_left
              times e hsle i h5)
          · rw [le_antisymm h h5, hB]
        · intro h
          by_contra h5
          push_neg at h5
          have h6 := HDF5eventLogger.sorted_getD_lt times hs
            (HDF5eventLogger.bisect_left times e) i h5 hi
          rw [hB] at h6
          exact absurd h (not_le.mpr h6)
    · by_cases hC : 0 < HDF5eventLogger.bisect_left times e
      · have he_lt : e < times.getD (HDF5eventLogger.bisect_left times e)
            0 :=
          lt_of_le_of_ne (HDF5eventLogger.le_getD_of_bisect_left_le times e
            hsle _ (le_refl _) hA) (fun h => hB h.symm)
        refine ⟨HDF5eventLogger.bisect_left times s,
          HDF5eventLogger.bisect_left times e - 1, ?_, ?_⟩
        · simp only [HDF5eventLogger.find_event_range]
          rw [hfr, find_event_left_step times e hA hB hC, Prod.mk.injEq]
          exact ⟨rfl, by omega⟩
        · intro i hi
          refine and_congr (hf i hi) ?_
          constructor
          · intro h
            exact le_of_lt (HDF5eventLogger.getD_lt_of_lt_bisect_left
              times e hsle i (by omega))
          · intro h
            by_contra h5
            push_neg at h5
            have h6 : HDF5eventLogger.bisect_left times e ≤ i := by omega
            rcases eq_or_lt_of_le h6 with h7 | h7
            · rw [← h7] at h
              exact absurd h (not_le.mpr he_lt)
            · have h8 := HDF5eventLogger.sorted_getD_lt times hs
                (HDF5eventLogger.bisect_left times e) i h7 hi
              exact absurd h (not_le.mpr (lt_trans he_lt h8))
      · exfalso
        push_neg at hC
        have h0 : HDF5eventLogger.bisect_left times e = 0 := by omega
        have he_lt : e < times.getD 0 0 := by
          have h9 := HDF5eventLogger.le_getD_of_bisect_left_le times e hsle
            0 (by omega) (by omega)
          refine lt_of_le_of_ne h9 (fun h => hB ?_)
          rw [h0]
          exact h.symm
        have hmono : times.getD 0 0 ≤ times.getD i0 0 := by
          rcases Nat.eq_zero_or_pos i0 with h9 | h9
          · rw [h9]
          · exact le_of_lt (HDF5eventLogger.sorted_getD_lt times hs 0 i0
              h9 hi0n)
        linarith

/-- Witness for C5 (amended) on the strictly sorted column `[1, 2, 3]`
with bound `[0, 2]`: rows 0 and 1 are exactly the rows in range. -/
theorem C5_find_event_range_exact_witness :
    ∃ f l : ℕ,
      HDF5eventLogger.find_event_range [(1 : ℚ), 2, 3] 0 2 =
        ((f : ℤ), (l : ℤ)) ∧
      ∀ i, i < [(1 : ℚ), 2, 3].length →
        ((f ≤ i ∧ i ≤ l) ↔
          ((0 : ℚ) ≤ [(1 : ℚ), 2, 3].getD i 0 ∧
            [(1 : ℚ), 2, 3].getD i 0 ≤ 2)) :=
  C5_find_event_range_exact [(1 : ℚ), 2, 3] 0 2
    (by norm_num [List.sorted_cons]) ⟨0, by norm_num⟩
